import Mathlib

/-!
# Leveled structured logging core (`pkg/log/log.go`)

A shallow embedding of the logging package: the key-value normalizer
`handleFields`, the verbosity gate `V`, the `infoLogger` emission methods,
logger derivation (`WithValues`, `WithName`, `L`) and construction (`New`).

The package is a thin layer over the zap library.  The parts of zap that the
package's behaviour depends on are embedded as well, following zap's
documented behaviour: level gating by the core, the terminal behaviour that
`Logger.check` attaches to `DPanic`/`Panic`/`Fatal` entries, `With`, `Named`
and `Level.UnmarshalText`.

Effects are explicit.  A call yields an `Outcome`: the trace of observable
events (records written to the sink, evaluations of `fmt.Sprintf`) together
with how the call ended (normal return, Go panic, process exit).

The core that `New` builds is wrapped in zap's sampler.  The sampler is part
of the model; what it has counted when an entry reaches it depends on the
earlier calls and on the wall clock, and is an argument (`seen`) of every
function that logs.

Left out of the model: timestamps, caller and stack-trace annotation and the
encoder.
-/

namespace Log

/-! ## Values, fields, records -/

/-- Dynamic Go values as they are passed in `...interface{}` argument lists.
`field key val` is a `zap.Field` boxed in an interface value. -/
inductive Value where
  | nil
  | str (s : String)
  | int (n : Int)
  | bool (b : Bool)
  | field (key : String) (val : Value)
  | other (tag : Nat)
  deriving DecidableEq, Repr

/-- A `zap.Field`: a key and the value it carries.  The zap field type is
determined by the dynamic type of the value. -/
structure Field where
  Key : String
  Interface : Value
  deriving DecidableEq, Repr

/-- The constructor `zap.Any(key, value)`. -/
def zap.Any (key : String) (value : Value) : Field := ⟨key, value⟩

/-- The constructor `zap.String(key, val)` (named `zap.Str` here, as `String` is
the Lean type); `zap.Any` at a string value is the same field. -/
def zap.Str (key : String) (val : String) : Field := ⟨key, Value.str val⟩

/-- The type assertion `v.(zap.Field)`. -/
def Value.asField : Value → Option Field
  | Value.field key val => some ⟨key, val⟩
  | _ => none

/-- The type assertion `v.(string)`; the zero value `""` is the caller's concern. -/
def Value.asString : Value → Option String
  | Value.str s => some s
  | _ => none

/-- A log message: a literal string, or the result of `fmt.Sprintf(format, args...)`,
kept symbolic. -/
inductive Text where
  | lit (s : String)
  | sprintf (format : String) (args : List Value)
  deriving DecidableEq, Repr

/-- The type `zapcore.Level` is a signed 8-bit integer. -/
abbrev zapcore.Level := Int

def zapcore.DebugLevel : zapcore.Level := -1
def zapcore.InfoLevel : zapcore.Level := 0
def zapcore.WarnLevel : zapcore.Level := 1
def zapcore.ErrorLevel : zapcore.Level := 2
def zapcore.DPanicLevel : zapcore.Level := 3
def zapcore.PanicLevel : zapcore.Level := 4
def zapcore.FatalLevel : zapcore.Level := 5

/-- One record as handed to the sink: the entry of `zapcore.Entry` plus the
fields (context fields of the logger first, then the fields of the call). -/
structure Entry where
  Level : zapcore.Level
  LoggerName : String
  Message : Text
  Fields : List Field
  deriving DecidableEq, Repr

/-! ## Effects -/

/-- Observable events of a call. -/
inductive Event where
  | write (e : Entry)
  | format (format : String) (args : List Value)
  deriving DecidableEq, Repr

/-- How a call ends: normal return, a Go panic unwinding the caller, or
termination of the process (`os.Exit`). -/
inductive Result (α : Type) where
  | returned (a : α)
  | panicked
  | exited
  deriving DecidableEq, Repr

/-- The events of a call and how it ended. -/
structure Outcome (α : Type) where
  events : List Event
  result : Result α
  deriving DecidableEq, Repr

/-- A call that returns `a` without any event. -/
def Outcome.pure {α : Type} (a : α) : Outcome α := ⟨[], Result.returned a⟩

/-- Sequencing: the continuation runs only after a normal return. -/
def Outcome.bind {α β : Type} (m : Outcome α) (f : α → Outcome β) : Outcome β :=
  match m.result with
  | Result.returned a => ⟨m.events ++ (f a).events, (f a).result⟩
  | Result.panicked => ⟨m.events, Result.panicked⟩
  | Result.exited => ⟨m.events, Result.exited⟩

/-- The records written to the sink during a call. -/
def records : List Event → List Entry
  | [] => []
  | Event.write e :: es => e :: records es
  | Event.format _ _ :: es => records es

/-- The evaluations of `fmt.Sprintf` during a call. -/
def formats : List Event → List (String × List Value)
  | [] => []
  | Event.write _ :: es => formats es
  | Event.format f a :: es => (f, a) :: formats es

/-! ## The zap backend -/

/-- The core of a zap logger as built by `zap.Config.Build`: the minimum
level (`AtomicLevel`), the sink configuration it writes to, and the sampler
wrapped around it (`Initial` and `Thereafter` of `zap.SamplingConfig`, per
second; `none` when the core has no sampler). -/
structure zapcore.Core where
  level : zapcore.Level
  Encoding : String
  colorLevel : Bool
  OutputPaths : List String
  ErrorOutputPaths : List String
  Sampling : Option (Nat × Nat)
  deriving DecidableEq, Repr

/-- The method `Core.Enabled`: the level enabler of an `AtomicLevel`,
`lvl >= minimum`. -/
def zapcore.Core.Enabled (c : zapcore.Core) (lvl : zapcore.Level) : Bool :=
  decide (c.level ≤ lvl)

/-- The decision of the sampler for an entry of an enabled level
(`sampler.Check`).  The number `seen` is what the counter for the level and
message of the entry shows in the current tick, this entry included (the result
of `IncCheckReset`).  The entry is dropped when `seen` exceeds `Initial`, except
for every `Thereafter`-th entry after that; levels outside `Debug..Fatal` are
not sampled. -/
def zapcore.Core.sampled (c : zapcore.Core) (lvl : zapcore.Level) (seen : Nat) : Bool :=
  match c.Sampling with
  | none => true
  | some (first, thereafter) =>
    if zapcore.DebugLevel ≤ lvl ∧ lvl ≤ zapcore.FatalLevel then
      !(decide (seen > first) &&
        (decide (thereafter = 0) || decide ((seen - first) % thereafter ≠ 0)))
    else true

/-- A `*zap.Logger`.  Loggers are never modified after construction (`With`
and `Named` work on a clone), so they are embedded as values. -/
structure zap.Logger where
  core : zapcore.Core
  development : Bool
  name : String
  fields : List Field
  addCaller : Bool
  callerSkip : Nat
  addStack : Option zapcore.Level
  deriving DecidableEq, Repr

/-- The method `Logger.Core`. -/
def zap.Logger.Core (log : zap.Logger) : zapcore.Core := log.core

/-- What a checked entry does after it has been written (`zapcore.CheckWriteAction`). -/
inductive zapcore.CheckWriteAction where
  | WriteThenNoop
  | WriteThenPanic
  | WriteThenFatal
  deriving DecidableEq, Repr

/-- A non-nil `*zapcore.CheckedEntry`: the entry, whether a core accepted
it, and the terminal behaviour attached to it. -/
structure zapcore.CheckedEntry where
  Level : zapcore.Level
  LoggerName : String
  Message : Text
  context : List Field
  willWrite : Bool
  should : zapcore.CheckWriteAction
  deriving DecidableEq, Repr

/-- The method `Logger.check`, which `Logger.Check` and the severity methods
call.  Levels below `DPanicLevel` are dropped early when the core disables them.
The core accepts the entry (`core.Check`) when it enables the level and its
sampler, having counted `seen` such entries, lets the entry pass.  The
terminal behaviour of `Panic`, `Fatal` and (in development) `DPanic` is
attached whether or not a core accepted the entry.  `none` is the nil entry. -/
def zap.Logger.check (log : zap.Logger) (seen : Nat) (lvl : zapcore.Level) (msg : Text) :
    Option zapcore.CheckedEntry :=
  if lvl < zapcore.DPanicLevel ∧ log.core.Enabled lvl = false then none
  else
    let willWrite := log.core.Enabled lvl && log.core.sampled lvl seen
    let should :=
      if lvl = zapcore.PanicLevel then zapcore.CheckWriteAction.WriteThenPanic
      else if lvl = zapcore.FatalLevel then zapcore.CheckWriteAction.WriteThenFatal
      else if lvl = zapcore.DPanicLevel ∧ log.development = true then
        zapcore.CheckWriteAction.WriteThenPanic
      else zapcore.CheckWriteAction.WriteThenNoop
    if willWrite = false ∧ should = zapcore.CheckWriteAction.WriteThenNoop then none
    else some ⟨lvl, log.name, msg, log.fields, willWrite, should⟩

/-- The method `Logger.Check`. -/
def zap.Logger.Check (log : zap.Logger) (seen : Nat) (lvl : zapcore.Level) (msg : Text) :
    Option zapcore.CheckedEntry :=
  log.check seen lvl msg

/-- The method `CheckedEntry.Write`: the record goes to the cores that accepted
the entry, then the terminal behaviour runs. -/
def zapcore.CheckedEntry.Write (ce : zapcore.CheckedEntry) (fields : List Field) :
    Outcome Unit :=
  let written : List Event :=
    if ce.willWrite then
      [Event.write ⟨ce.Level, ce.LoggerName, ce.Message, ce.context ++ fields⟩]
    else []
  match ce.should with
  | zapcore.CheckWriteAction.WriteThenNoop => ⟨written, Result.returned ()⟩
  | zapcore.CheckWriteAction.WriteThenPanic => ⟨written, Result.panicked⟩
  | zapcore.CheckWriteAction.WriteThenFatal => ⟨written, Result.exited⟩

/-- The method `Logger.DPanic`: logs at `DPanicLevel`; a logger in development
mode then panics. -/
def zap.Logger.DPanic (log : zap.Logger) (seen : Nat) (msg : String) (fields : List Field) :
    Outcome Unit :=
  match log.check seen zapcore.DPanicLevel (Text.lit msg) with
  | some ce => ce.Write fields
  | none => Outcome.pure ()

/-- The method `Logger.Info`. -/
def zap.Logger.Info (log : zap.Logger) (seen : Nat) (msg : String) (fields : List Field) :
    Outcome Unit :=
  match log.check seen zapcore.InfoLevel (Text.lit msg) with
  | some ce => ce.Write fields
  | none => Outcome.pure ()

/-- The method `Logger.With`: a clone whose context has the fields appended;
the receiver itself when there is nothing to add. -/
def zap.Logger.With (log : zap.Logger) (fields : List Field) : zap.Logger :=
  if fields.isEmpty then log else { log with fields := log.fields ++ fields }

/-- The method `Logger.Named`: a clone with the segment joined to the name by a
period; the receiver itself for the empty segment. -/
def zap.Logger.Named (log : zap.Logger) (s : String) : zap.Logger :=
  if s = "" then log
  else if log.name = "" then { log with name := s }
  else { log with name := log.name ++ "." ++ s }

/-! ## The package: normalizer -/

/-- The loop of `handleFields`.  The list is the unprocessed rest `args[i:]`
of the argument list, `fields` the fields collected so far; every `break`
leaves the loop with the fields collected so far.  The loop calls `DPanic` at
most once; `seen` is the count of the sampler for that entry. -/
def handleFieldsLoop (l : zap.Logger) (seen : Nat) :
    List Value → List Field → Outcome (List Field)
  | [], fields => Outcome.pure fields
  | key :: rest, fields =>
    if key.asField.isSome then
      (l.DPanic seen "strongly-typed Zap Field passed to logr" [zap.Any "zap field" key]).bind
        fun _ => Outcome.pure fields
    else
      match rest with
      | [] =>
        (l.DPanic seen "odd number of arguments passed as key-value pairs for logging"
          [zap.Any "ignore key" key]).bind fun _ => Outcome.pure fields
      | val :: rest2 =>
        match key.asString with
        | none =>
          (l.DPanic seen
            "non-string key argument passed to logging, ignoring all later arguments"
            [zap.Any "invalid key" key]).bind fun _ => Outcome.pure fields
        | some keyStr => handleFieldsLoop l seen rest2 (fields ++ [zap.Any keyStr val])

/-- The function `handleFields(l, args, additional...)`; `seen` is the count of
the sampler for the diagnostic entry, should one be logged. -/
def handleFields (l : zap.Logger) (seen : Nat) (args : List Value)
    (additional : List Field) : Outcome (List Field) :=
  if args.length = 0 then Outcome.pure additional
  else (handleFieldsLoop l seen args []).bind fun fields => Outcome.pure (fields ++ additional)

/-! ## The package: info capabilities and the verbosity gate -/

/-- The evaluation of `fmt.Sprintf(format, args...)`: it is observable as an
event and yields the formatted text. -/
def fmt.Sprintf (format : String) (args : List Value) : Outcome Text :=
  ⟨[Event.format format args], Result.returned (Text.sprintf format args)⟩

/-- The struct `infoLogger`: a level and the backend it logs on. -/
structure infoLogger where
  level : zapcore.Level
  log : zap.Logger
  deriving DecidableEq, Repr

/-- The method `(*infoLogger).Enabled`. -/
def infoLogger.Enabled (_l : infoLogger) : Bool := true

/-- The method `(*infoLogger).Info`; `seen` is the count of the sampler for the entry. -/
def infoLogger.Info (l : infoLogger) (seen : Nat) (msg : String) (fields : List Field) :
    Outcome Unit :=
  match l.log.Check seen l.level (Text.lit msg) with
  | some checkedEntry => checkedEntry.Write fields
  | none => Outcome.pure ()

/-- The method `(*infoLogger).Infof`.  The message is an argument of `Check`, so
`fmt.Sprintf` is evaluated before `Check` is called. -/
def infoLogger.Infof (l : infoLogger) (seen : Nat) (format : String) (args : List Value) :
    Outcome Unit :=
  (fmt.Sprintf format args).bind fun msg =>
    match l.log.Check seen l.level msg with
    | some checkedEntry => checkedEntry.Write []
    | none => Outcome.pure ()

/-- The method `(*infoLogger).Infow`: the key-value list is normalized only
once `Check` has returned an entry.  The sampler has counted `seen` for the
entry of the message and `seenDiag` for a diagnostic entry of `handleFields`. -/
def infoLogger.Infow (l : infoLogger) (seen seenDiag : Nat) (msg : String)
    (KeysAndValues : List Value) : Outcome Unit :=
  match l.log.Check seen l.level (Text.lit msg) with
  | some checkedEntry =>
    (handleFields l.log seenDiag KeysAndValues []).bind fun fields => checkedEntry.Write fields
  | none => Outcome.pure ()

/-- A value of the interface `InfoLogger` as `V` returns it: the shared
`*noopInfoLogger`, or an `*infoLogger`. -/
inductive InfoLogger where
  | noop
  | info (l : infoLogger)
  deriving DecidableEq, Repr

/-- The package variable `disabledInfoLogger`. -/
def disabledInfoLogger : InfoLogger := InfoLogger.noop

/-- The method `Enabled` of the interface: `false` on the no-op logger. -/
def InfoLogger.Enabled : InfoLogger → Bool
  | InfoLogger.noop => false
  | InfoLogger.info l => l.Enabled

/-- The method `Info` of the interface; the no-op logger has an empty body. -/
def InfoLogger.Info : InfoLogger → Nat → String → List Field → Outcome Unit
  | InfoLogger.noop, _, _, _ => Outcome.pure ()
  | InfoLogger.info l, seen, msg, fields => l.Info seen msg fields

/-- The method `Infof` of the interface.  The format arguments are handed to
the method as they are; the no-op logger has an empty body. -/
def InfoLogger.Infof : InfoLogger → Nat → String → List Value → Outcome Unit
  | InfoLogger.noop, _, _, _ => Outcome.pure ()
  | InfoLogger.info l, seen, format, args => l.Infof seen format args

/-- The method `Infow` of the interface; the no-op logger has an empty body. -/
def InfoLogger.Infow : InfoLogger → Nat → Nat → String → List Value → Outcome Unit
  | InfoLogger.noop, _, _, _, _ => Outcome.pure ()
  | InfoLogger.info l, seen, seenDiag, msg, kvs => l.Infow seen seenDiag msg kvs

/-- The struct `zapLogger`: the backend and the embedded `infoLogger`. -/
structure zapLogger where
  zapLogger : zap.Logger
  infoLogger : infoLogger
  deriving DecidableEq, Repr

/-- Conversion of an integer to Go `int` (64 bits, two's complement). -/
def int64 (x : Int) : Int := (x + 2 ^ 63) % 2 ^ 64 - 2 ^ 63

/-- Conversion of an integer to `int8`, the type under `zapcore.Level`: the low
eight bits, two's complement. -/
def int8 (x : Int) : Int := (x + 128) % 256 - 128

/-- The method `(*zapLogger).V`: `lvl := zapcore.Level(-1 * level)`, where the
product is a Go `int` and the conversion keeps its low eight bits. -/
def zapLogger.V (l : Log.zapLogger) (level : Int) : InfoLogger :=
  let lvl : zapcore.Level := int8 (int64 (-1 * level))
  if l.zapLogger.Core.Enabled lvl then InfoLogger.info ⟨lvl, l.zapLogger⟩
  else disabledInfoLogger

/-! ## The package: heap of loggers, derivation -/

/-- The address of a `zapLogger` struct (`*zapLogger`). -/
abbrev Ptr := Nat

/-- The allocated `zapLogger` structs; the address of a struct is its position. -/
structure Heap where
  objs : List zapLogger
  deriving DecidableEq, Repr

/-- Dereference; `none` for an address that holds no struct (nil). -/
def Heap.get? (h : Heap) (p : Ptr) : Option zapLogger := h.objs[p]?

/-- Allocation of a new struct (`&zapLogger{...}`). -/
def Heap.alloc (h : Heap) (o : zapLogger) : Heap × Ptr := (⟨h.objs ++ [o]⟩, h.objs.length)

/-- Assignment to the struct at an address. -/
def Heap.set (h : Heap) (p : Ptr) (o : zapLogger) : Heap := ⟨h.objs.set p o⟩

/-- The function `NewLogger`. -/
def NewLogger (h : Heap) (l : zap.Logger) : Heap × Ptr :=
  h.alloc { zapLogger := l, infoLogger := { log := l, level := zapcore.InfoLevel } }

/-- The method `(*zapLogger).WithValues`; dereferencing a nil receiver panics.
The count `seen` of the sampler is for a diagnostic entry of `handleFields`. -/
def zapLogger.WithValues (h : Heap) (l : Ptr) (seen : Nat) (keysAndValues : List Value) :
    Heap × Outcome Ptr :=
  match h.get? l with
  | none => (h, ⟨[], Result.panicked⟩)
  | some o =>
    let r := handleFields o.zapLogger seen keysAndValues []
    match r.result with
    | Result.returned fields =>
      let a := NewLogger h (o.zapLogger.With fields)
      (a.1, ⟨r.events, Result.returned a.2⟩)
    | Result.panicked => (h, ⟨r.events, Result.panicked⟩)
    | Result.exited => (h, ⟨r.events, Result.exited⟩)

/-- The method `(*zapLogger).WithName`. -/
def zapLogger.WithName (h : Heap) (l : Ptr) (name : String) : Heap × Outcome Ptr :=
  match h.get? l with
  | none => (h, ⟨[], Result.panicked⟩)
  | some o =>
    let a := NewLogger h (o.zapLogger.Named name)
    (a.1, ⟨[], Result.returned a.2⟩)

/-- The method `(*zapLogger).clone`: `copy := *l; return &copy`. -/
def zapLogger.clone (h : Heap) (l : Ptr) : Heap × Outcome Ptr :=
  match h.get? l with
  | none => (h, ⟨[], Result.panicked⟩)
  | some o =>
    let a := h.alloc o
    (a.1, ⟨[], Result.returned a.2⟩)

/-- A `context.Context`, as far as the package uses it: the method `Value`,
which yields nil when no value is stored under the key. -/
structure Context where
  Value : Value → Value

/-- The method `(*zapLogger).L`.  The context keys `KeyRequestID` and
`KeyUsername` are string constants declared outside the sources at hand and are
taken as parameters.  A failed type assertion in the two-result form yields the empty string. -/
def zapLogger.L (KeyRequestID KeyUsername : String) (h : Heap) (l : Ptr) (ctx : Context) :
    Heap × Outcome Ptr :=
  match zapLogger.clone h l with
  | (h1, ⟨evs, Result.returned lg⟩) =>
    match h1.get? lg with
    | none => (h1, ⟨evs, Result.panicked⟩)
    | some o =>
      let requestID := ((ctx.Value (Value.str KeyRequestID)).asString).getD ""
      let username := ((ctx.Value (Value.str KeyUsername)).asString).getD ""
      let fields := [zap.Str KeyRequestID requestID, zap.Str KeyUsername username]
      let o2 : Log.zapLogger := ⟨zap.Logger.With o.zapLogger fields, o.infoLogger⟩
      (h1.set lg o2, ⟨evs, Result.returned lg⟩)
  | (h1, ⟨evs, Result.panicked⟩) => (h1, ⟨evs, Result.panicked⟩)
  | (h1, ⟨evs, Result.exited⟩) => (h1, ⟨evs, Result.exited⟩)

/-! ## The package: construction -/

/-- The struct `Options`, declared outside the sources at hand: the fields that `New` reads. -/
structure Options where
  OutputPaths : List String
  ErrorOutputPaths : List String
  Level : String
  Format : String
  DisableCaller : Bool
  DisableStacktrace : Bool
  EnableColor : Bool
  Development : Bool
  Name : String
  deriving DecidableEq, Repr

/-- Modelled from the spec: the constant `consoleFormat` is declared outside the
sources at hand; it selects the human-readable console encoding. -/
def consoleFormat : String := "console"

/-- Modelled from the spec: the function `NewOptions` is declared outside the
sources at hand.  The default configuration is Info-or-above with the
human-readable console encoding, on the standard streams. -/
def NewOptions : Options :=
  { OutputPaths := ["stdout"], ErrorOutputPaths := ["stderr"], Level := "info",
    Format := consoleFormat, DisableCaller := false, DisableStacktrace := false,
    EnableColor := false, Development := false, Name := "" }

/-- What the process environment decides: whether `zap.Open` can open a list of
sink paths, and the case mapping `bytes.ToLower`. -/
structure Env where
  canOpen : List String → Bool
  ToLower : String → String

/-- The method `Level.unmarshalText`: the exact lower-case and upper-case names. -/
def zapcore.unmarshalText (text : String) : Option zapcore.Level :=
  if text = "debug" ∨ text = "DEBUG" then some zapcore.DebugLevel
  else if text = "info" ∨ text = "INFO" ∨ text = "" then some zapcore.InfoLevel
  else if text = "warn" ∨ text = "WARN" then some zapcore.WarnLevel
  else if text = "error" ∨ text = "ERROR" then some zapcore.ErrorLevel
  else if text = "dpanic" ∨ text = "DPANIC" then some zapcore.DPanicLevel
  else if text = "panic" ∨ text = "PANIC" then some zapcore.PanicLevel
  else if text = "fatal" ∨ text = "FATAL" then some zapcore.FatalLevel
  else none

/-- The method `Level.UnmarshalText`: the text as given, then lower-cased;
`none` is the error "unrecognized level". -/
def zapcore.UnmarshalText (env : Env) (text : String) : Option zapcore.Level :=
  match zapcore.unmarshalText text with
  | some l => some l
  | none => zapcore.unmarshalText (env.ToLower text)

/-- The struct `zap.Config`, as far as `New` fills it and the model uses it. -/
structure zap.Config where
  Level : zapcore.Level
  Development : Bool
  DisableCaller : Bool
  DisableStacktrace : Bool
  Sampling : Option (Nat × Nat)
  Encoding : String
  colorLevel : Bool
  OutputPaths : List String
  ErrorOutputPaths : List String
  deriving DecidableEq, Repr

/-- The method `Config.Build` with the options `AddStacktrace(stack)` and
`AddCallerSkip(skip)`.  It fails (`none`) when no encoder is registered under
the name or a sink cannot be opened; the level plays no part in that.  With a
sampling configuration the core is wrapped in a sampler. -/
def zap.Config.Build (env : Env) (cfg : zap.Config) (stack : zapcore.Level) (skip : Nat) :
    Option zap.Logger :=
  if cfg.Encoding ≠ "json" ∧ cfg.Encoding ≠ "console" then none
  else if env.canOpen cfg.OutputPaths = false then none
  else if env.canOpen cfg.ErrorOutputPaths = false then none
  else some
    { core := ⟨cfg.Level, cfg.Encoding, cfg.colorLevel, cfg.OutputPaths, cfg.ErrorOutputPaths,
        cfg.Sampling⟩,
      development := cfg.Development,
      name := "",
      fields := [],
      addCaller := !cfg.DisableCaller,
      callerSkip := skip,
      addStack := some stack }

/-- The function `New`.  A nil `opts` is replaced by `NewOptions()`; a level
text that does not parse leaves `zapLevel` at `InfoLevel`; the sampling
configuration is `Initial: 100, Thereafter: 100`; a failing `Build` panics.
(The redirection of the standard library logger is not modelled.) -/
def New (env : Env) (h : Heap) (opts : Option Options) : Heap × Outcome Ptr :=
  let opts := match opts with
    | none => NewOptions
    | some o => o
  let zapLevel : zapcore.Level :=
    match zapcore.UnmarshalText env opts.Level with
    | none => zapcore.InfoLevel
    | some lvl => lvl
  let colorLevel : Bool := decide (opts.Format = consoleFormat) && opts.EnableColor
  let loggerConfig : zap.Config :=
    { Level := zapLevel,
      Development := opts.Development,
      DisableCaller := opts.DisableCaller,
      DisableStacktrace := opts.DisableStacktrace,
      Sampling := some (100, 100),
      Encoding := opts.Format,
      colorLevel := colorLevel,
      OutputPaths := opts.OutputPaths,
      ErrorOutputPaths := opts.ErrorOutputPaths }
  match loggerConfig.Build env zapcore.PanicLevel 1 with
  | none => (h, ⟨[], Result.panicked⟩)
  | some l =>
    let a := h.alloc
      { zapLogger := l.Named opts.Name,
        infoLogger := { log := l, level := zapcore.InfoLevel } }
    (a.1, ⟨[], Result.returned a.2⟩)

/-! ## The package: process-wide default -/

/-- The severities of the package-level functions and of the methods of
`Logger`: `Debug`, `Info`, `Warn`, `Error`, `Panic`, `Fatal`. -/
inductive Severity where
  | Debug
  | Info
  | Warn
  | Error
  | Panic
  | Fatal
  deriving DecidableEq, Repr

/-- The zap level at which a severity logs. -/
def Severity.level : Severity → zapcore.Level
  | Severity.Debug => zapcore.DebugLevel
  | Severity.Info => zapcore.InfoLevel
  | Severity.Warn => zapcore.WarnLevel
  | Severity.Error => zapcore.ErrorLevel
  | Severity.Panic => zapcore.PanicLevel
  | Severity.Fatal => zapcore.FatalLevel

/-- The three shapes of a severity call: `X(msg, fields...)`,
`Xf(format, v...)` and `Xw(msg, keysAndValues...)`. -/
inductive Call where
  | fields (msg : String) (fields : List Field)
  | format (format : String) (v : List Value)
  | kv (msg : String) (keysAndValues : List Value)
  deriving DecidableEq, Repr

/-- The severity methods of `*zap.Logger` (`Debug`, `Info`, `Warn`, `Error`,
`Panic`, `Fatal`): each is `check` at its level followed by `Write`. -/
def zap.Logger.log (log : zap.Logger) (seen : Nat) (lvl : zapcore.Level) (msg : String)
    (fields : List Field) : Outcome Unit :=
  match log.check seen lvl (Text.lit msg) with
  | some ce => ce.Write fields
  | none => Outcome.pure ()

/-- The operations of zap that the package only passes calls on to and that
are not embedded: the formatted and the key-value methods of the sugared
logger `log.Sugar()` (given what the sampler has counted), and `log.Sync()`. -/
structure zap.Library where
  Sugarf : zap.Logger → Nat → zapcore.Level → String → List Value → Outcome Unit
  Sugarw : zap.Logger → Nat → zapcore.Level → String → List Value → Outcome Unit
  Sync : zap.Logger → Outcome Unit

/-- A severity call on a backend: `log.X(msg, fields...)`,
`log.Sugar().Xf(format, v...)` or `log.Sugar().Xw(msg, keysAndValues...)`. -/
def zap.Logger.call (lib : zap.Library) (log : zap.Logger) (seen : Nat) (sev : Severity) :
    Call → Outcome Unit
  | Call.fields msg fields => log.log seen sev.level msg fields
  | Call.format format v => lib.Sugarf log seen sev.level format v
  | Call.kv msg keysAndValues => lib.Sugarw log seen sev.level msg keysAndValues

/-- The severity methods of `*zapLogger` (`Debug`, `Debugf`, `Debugw`, ...,
`Fatalw`): the call goes to `l.zapLogger`; dereferencing a nil receiver panics. -/
def zapLogger.severity (lib : zap.Library) (h : Heap) (l : Ptr) (seen : Nat) (sev : Severity)
    (c : Call) : Outcome Unit :=
  match h.get? l with
  | none => ⟨[], Result.panicked⟩
  | some o => o.zapLogger.call lib seen sev c

/-- The method `(*zapLogger).Flush`: `_ = l.zapLogger.Sync()`. -/
def zapLogger.Flush (lib : zap.Library) (h : Heap) (l : Ptr) : Outcome Unit :=
  match h.get? l with
  | none => ⟨[], Result.panicked⟩
  | some o => lib.Sync o.zapLogger

/-- The state of the package: the allocated loggers and the variable `std`,
the slot that holds the address of the default logger.  (The mutex `mu`
serializes `Init`; calls are sequential in this model.) -/
structure State where
  heap : Heap
  std : Ptr
  deriving DecidableEq, Repr

/-- The initialization of the package variable: `std = New(NewOptions())`. -/
def State.initial (env : Env) : State × Outcome Unit :=
  match New env ⟨[]⟩ (some NewOptions) with
  | (h1, ⟨evs, Result.returned p⟩) => (⟨h1, p⟩, ⟨evs, Result.returned ()⟩)
  | (h1, ⟨evs, Result.panicked⟩) => (⟨h1, 0⟩, ⟨evs, Result.panicked⟩)
  | (h1, ⟨evs, Result.exited⟩) => (⟨h1, 0⟩, ⟨evs, Result.exited⟩)

/-- The function `Init`: `std = New(opts)`.  When `New` panics the assignment
does not take place. -/
def Init (env : Env) (st : State) (opts : Option Options) : State × Outcome Unit :=
  match New env st.heap opts with
  | (h1, ⟨evs, Result.returned p⟩) => (⟨h1, p⟩, ⟨evs, Result.returned ()⟩)
  | (h1, ⟨evs, Result.panicked⟩) => (⟨h1, st.std⟩, ⟨evs, Result.panicked⟩)
  | (h1, ⟨evs, Result.exited⟩) => (⟨h1, st.std⟩, ⟨evs, Result.exited⟩)

/-- The package-level function `V`: `std.V(level)`. -/
def V (st : State) (level : Int) : Outcome InfoLogger :=
  match st.heap.get? st.std with
  | none => ⟨[], Result.panicked⟩
  | some o => Outcome.pure (o.V level)

/-- The package-level function `WithValues`: `std.WithValues(keysAndValues...)`. -/
def WithValues (st : State) (seen : Nat) (keysAndValues : List Value) : State × Outcome Ptr :=
  (⟨(zapLogger.WithValues st.heap st.std seen keysAndValues).1, st.std⟩,
    (zapLogger.WithValues st.heap st.std seen keysAndValues).2)

/-- The package-level function `WithName`: `std.WithName(s)`. -/
def WithName (st : State) (s : String) : State × Outcome Ptr :=
  (⟨(zapLogger.WithName st.heap st.std s).1, st.std⟩, (zapLogger.WithName st.heap st.std s).2)

/-- The package-level function `L`: `std.L(ctx)`. -/
def L (KeyRequestID KeyUsername : String) (st : State) (ctx : Context) : State × Outcome Ptr :=
  (⟨(zapLogger.L KeyRequestID KeyUsername st.heap st.std ctx).1, st.std⟩,
    (zapLogger.L KeyRequestID KeyUsername st.heap st.std ctx).2)

/-- The package-level function `Flush`: `std.Flush()`. -/
def Flush (lib : zap.Library) (st : State) : Outcome Unit :=
  zapLogger.Flush lib st.heap st.std

/-- The package-level severity functions (`Debug`, `Debugf`, `Debugw`, ...,
`Fatalw`): the call goes to `std.zapLogger`. -/
def severity (lib : zap.Library) (st : State) (seen : Nat) (sev : Severity) (c : Call) :
    Outcome Unit :=
  match st.heap.get? st.std with
  | none => ⟨[], Result.panicked⟩
  | some o => o.zapLogger.call lib seen sev c

/-! ## Vocabulary of the statements -/

/-- The `j`-th pair of an argument list is fully present and its key
`args[2j]` is a string. -/
def wellFormedPair (args : List Value) (j : Nat) : Prop :=
  2 * j + 1 < args.length ∧ ∃ s, args[2 * j]? = some (Value.str s)

/-- The field `zap.Any(args[2j], args[2j+1])` of the `j`-th pair of an argument
list (with the zero values where the pair is not a string key and a value). -/
def fieldAt (args : List Value) (j : Nat) : Field :=
  zap.Any (((args.getD (2 * j) Value.nil).asString).getD "") (args.getD (2 * j + 1) Value.nil)

/-- The fields of the first `k` pairs of an argument list, in order. -/
def derived (args : List Value) (k : Nat) : List Field :=
  (List.range k).map (fieldAt args)

/-- The record a logger writes for `DPanic(msg, zap.Any(key, v))`. -/
def diagnostic (l : zap.Logger) (msg : String) (key : String) (v : Value) : Entry :=
  ⟨zapcore.DPanicLevel, l.name, Text.lit msg, l.fields ++ [zap.Any key v]⟩

/-- The diagnostic of `handleFields` about the element `key` at which
normalization stops; `last` tells whether it is the last element.  The checks
apply in the order of the loop body. -/
def stopDiagnostic (l : zap.Logger) (key : Value) (last : Bool) : Entry :=
  if key.asField.isSome then
    diagnostic l "strongly-typed Zap Field passed to logr" "zap field" key
  else if last then
    diagnostic l "odd number of arguments passed as key-value pairs for logging" "ignore key" key
  else
    diagnostic l "non-string key argument passed to logging, ignoring all later arguments"
      "invalid key" key

/-- The terminal behaviour that `check` attaches to an entry of level `lvl`:
`Panic` panics, `Fatal` exits, `DPanic` panics in development mode. -/
def terminalAction (log : zap.Logger) (lvl : zapcore.Level) : zapcore.CheckWriteAction :=
  if lvl = zapcore.PanicLevel then zapcore.CheckWriteAction.WriteThenPanic
  else if lvl = zapcore.FatalLevel then zapcore.CheckWriteAction.WriteThenFatal
  else if lvl = zapcore.DPanicLevel ∧ log.development = true then
    zapcore.CheckWriteAction.WriteThenPanic
  else zapcore.CheckWriteAction.WriteThenNoop

/-- A production logger at the default level, on the standard streams, with the
sampler that `New` configures. -/
def prodLogger : zap.Logger :=
  { core := ⟨zapcore.InfoLevel, "console", false, ["stdout"], ["stderr"], some (100, 100)⟩,
    development := false, name := "", fields := [], addCaller := true, callerSkip := 1,
    addStack := some zapcore.PanicLevel }

/-- The same logger in development mode. -/
def devLogger : zap.Logger := { prodLogger with development := true }

/-- The same production logger with the minimum level `fatal`. -/
def fatalLogger : zap.Logger :=
  { prodLogger with core := { prodLogger.core with level := zapcore.FatalLevel } }

/-- An environment in which every sink opens; the case mapping is the ASCII one. -/
def okEnv : Env := ⟨fun _ => true, fun s => String.mk (s.data.map Char.toLower)⟩

/-- A well-formed argument list: two pairs with string keys. -/
def evenArgs : List Value :=
  [Value.str "a", Value.int 1, Value.str "b", Value.bool true]

/-- The argument list of the call `Infow("msg", "a", 1, "b")`: a pair and an orphaned key. -/
def oddArgs : List Value := [Value.str "a", Value.int 1, Value.str "b"]

/-- An odd argument list whose last element is a typed field. -/
def oddArgsTyped : List Value :=
  [Value.str "a", Value.int 1, Value.field "k" (Value.int 2)]

/-- An argument list with a non-string key in the second pair. -/
def badKeyArgs : List Value :=
  [Value.str "a", Value.int 1, Value.int 7, Value.str "x", Value.str "b", Value.int 2]

/-- A suffix of one typed field. -/
def suffixFields : List Field := [zap.Str "c" "d"]

/-- The logger that `New` builds from the default options. -/
def stdLogger : zapLogger := ⟨prodLogger, ⟨zapcore.InfoLevel, prodLogger⟩⟩

/-- The default options with the development flag set. -/
def devOptions : Options := { NewOptions with Development := true }

/-- The logger that `New` builds from `devOptions`. -/
def devStdLogger : zapLogger := ⟨devLogger, ⟨zapcore.InfoLevel, devLogger⟩⟩

/-- A heap that holds the default logger at address `0`. -/
def stdHeap : Heap := ⟨[stdLogger]⟩

/-- The key-value list of the call `WithValues("job", 7)`. -/
def jobArgs : List Value := [Value.str "job", Value.int 7]

/-- A context that stores nothing. -/
def emptyContext : Context := ⟨fun _ => Value.nil⟩

/-- A context that stores a request id under the key `"requestID"` and the
number `42`, which is not a string, under the key `"username"`. -/
def requestContext : Context :=
  ⟨fun k =>
    if k = Value.str "requestID" then Value.str "r-1"
    else if k = Value.str "username" then Value.int 42
    else Value.nil⟩

/-- The default options with a level text that is not a severity name. -/
def verboseOptions : Options := { NewOptions with Level := "verbose" }

/-- Options for a reconfiguration: level `debug`, JSON encoding, a name. -/
def debugOptions : Options :=
  { NewOptions with Level := "debug", Format := "json", Name := "api" }

/-- The backend that `Config.Build` yields for `debugOptions`. -/
def debugBackend : zap.Logger :=
  { core := ⟨zapcore.DebugLevel, "json", false, ["stdout"], ["stderr"], some (100, 100)⟩,
    development := false, name := "", fields := [], addCaller := true, callerSkip := 1,
    addStack := some zapcore.PanicLevel }

/-- The logger that `New` builds from `debugOptions`. -/
def debugStdLogger : zapLogger :=
  ⟨{ debugBackend with name := "api" }, ⟨zapcore.InfoLevel, debugBackend⟩⟩

/-- The child `WithName("worker")` of the default logger. -/
def workerLogger : zapLogger :=
  ⟨{ prodLogger with name := "worker" },
    ⟨zapcore.InfoLevel, { prodLogger with name := "worker" }⟩⟩

/-- The state after package initialization in `okEnv`: the default logger at
address `0`, and `std` pointing to it. -/
def stdState : State := ⟨stdHeap, 0⟩

/-- A sugared logger and a `Sync` that do nothing observable. -/
def quietLibrary : zap.Library :=
  ⟨fun _ _ _ _ _ => Outcome.pure (), fun _ _ _ _ _ => Outcome.pure (),
    fun _ => Outcome.pure ()⟩

/-! ## Lemmas on the backend and the normalizer loop -/

theorem bind_pure_events {α β : Type} (m : Outcome α) (g : α → β) :
    (m.bind fun a => Outcome.pure (g a)).events = m.events := by
  unfold Outcome.bind Outcome.pure
  cases h : m.result <;> simp

theorem bind_pure_result {α β : Type} (m : Outcome α) (g : α → β) :
    (m.bind fun a => Outcome.pure (g a)).result =
      match m.result with
      | Result.returned a => Result.returned (g a)
      | Result.panicked => Result.panicked
      | Result.exited => Result.exited := by
  unfold Outcome.bind Outcome.pure
  cases h : m.result <;> simp

/-- What `DPanic` does: the record is written exactly when the core enables
`DPanicLevel` and the sampler lets the entry pass, and the call panics exactly
in development mode. -/
theorem DPanic_eq (l : zap.Logger) (seen : Nat) (msg : String) (fields : List Field) :
    l.DPanic seen msg fields =
      ⟨if l.core.Enabled zapcore.DPanicLevel && l.core.sampled zapcore.DPanicLevel seen then
          [Event.write ⟨zapcore.DPanicLevel, l.name, Text.lit msg, l.fields ++ fields⟩]
        else [],
       if l.development then Result.panicked else Result.returned ()⟩ := by
  unfold zap.Logger.DPanic zap.Logger.check zapcore.CheckedEntry.Write Outcome.pure
  cases he : l.core.Enabled zapcore.DPanicLevel <;>
    cases hs : l.core.sampled zapcore.DPanicLevel seen <;>
    cases hd : l.development <;>
    simp [zapcore.DPanicLevel, zapcore.PanicLevel, zapcore.FatalLevel]

/-- The method `check` at a level below `DPanicLevel`: the entry exists exactly
when the core enables the level and the sampler lets it pass, and it has no
terminal behaviour. -/
theorem check_below (log : zap.Logger) (seen : Nat) (lvl : zapcore.Level) (msg : Text)
    (h : lvl < zapcore.DPanicLevel) :
    log.check seen lvl msg =
      if log.core.Enabled lvl && log.core.sampled lvl seen then
        some ⟨lvl, log.name, msg, log.fields, true, zapcore.CheckWriteAction.WriteThenNoop⟩
      else none := by
  have h4 : ¬ lvl = zapcore.PanicLevel := by
    intro e
    subst e
    exact absurd h (by decide)
  have h5 : ¬ lvl = zapcore.FatalLevel := by
    intro e
    subst e
    exact absurd h (by decide)
  have h3 : ¬ lvl = zapcore.DPanicLevel := by
    intro e
    subst e
    exact absurd h (by decide)
  unfold zap.Logger.check
  cases he : log.core.Enabled lvl <;> cases hs : log.core.sampled lvl seen <;>
    simp [h, h3, h4, h5]

/-- The sampler that `New` configures lets the first hundred entries of a
tick pass and then every hundredth. -/
theorem sampled_iff (c : zapcore.Core) (hs : c.Sampling = some (100, 100))
    (lvl : zapcore.Level) (seen : Nat)
    (hl : zapcore.DebugLevel ≤ lvl ∧ lvl ≤ zapcore.FatalLevel) :
    c.sampled lvl seen = true ↔ (seen ≤ 100 ∨ (seen - 100) % 100 = 0) := by
  unfold zapcore.Core.sampled
  rw [hs]
  simp only [hl, and_self, if_true]
  by_cases h1 : seen > 100
  · by_cases h2 : (seen - 100) % 100 = 0
    · simp [h1, h2]
    · simp [h1, h2]
  · simp [h1]
    omega

theorem fieldAt_cons_cons (a b : Value) (rest : List Value) (j : Nat) :
    fieldAt (a :: b :: rest) (j + 1) = fieldAt rest j := by
  unfold fieldAt
  have h1 : 2 * (j + 1) = (2 * j) + 1 + 1 := by ring
  rw [h1]
  simp [List.getD_cons_succ]

theorem derived_cons_cons (a b : Value) (rest : List Value) (k : Nat) :
    derived (a :: b :: rest) (k + 1) = fieldAt (a :: b :: rest) 0 :: derived rest k := by
  unfold derived
  rw [List.range_succ_eq_map]
  simp [List.map_map, Function.comp_def, fieldAt_cons_cons]

theorem derived_length (args : List Value) (k : Nat) : (derived args k).length = k := by
  simp [derived]

/-- The loop consumes `k` well-formed leading pairs without any event: it
continues at index `2k` with their fields collected. -/
theorem handleFieldsLoop_pairs (l : zap.Logger) (seen : Nat) :
    ∀ (k : Nat) (args : List Value) (acc : List Field),
      (∀ j, j < k → wellFormedPair args j) →
      handleFieldsLoop l seen args acc =
        handleFieldsLoop l seen (args.drop (2 * k)) (acc ++ derived args k) := by
  intro k
  induction k with
  | zero => intro args acc _; simp [derived]
  | succ k ih =>
    intro args acc hp
    obtain ⟨hlen, s, hs⟩ := hp 0 (Nat.succ_pos k)
    match args, hlen, hs with
    | a :: b :: rest, _, hs =>
      simp at hs
      subst hs
      have hrest : ∀ j, j < k → wellFormedPair rest j := by
        intro j hj
        obtain ⟨h1, t, ht⟩ := hp (j + 1) (Nat.succ_lt_succ hj)
        have e : 2 * (j + 1) = 2 * j + 1 + 1 := by ring
        rw [e] at ht
        simp at h1 ht
        exact ⟨by omega, t, ht⟩
      have step : handleFieldsLoop l seen (Value.str s :: b :: rest) acc =
          handleFieldsLoop l seen rest (acc ++ [zap.Any s b]) := by
        simp [handleFieldsLoop, Value.asField, Value.asString]
      rw [step, ih rest _ hrest, derived_cons_cons]
      have e : 2 * (k + 1) = 2 * k + 1 + 1 := by ring
      rw [e]
      simp [fieldAt, Value.asString, zap.Any]

/-- The loop at an element that does not start a well-formed pair: one
`DPanic` call about that element (its record is written when the core enables
`DPanicLevel` and the sampler lets it pass), and the fields collected so far. -/
theorem handleFieldsLoop_stop (l : zap.Logger) (seen : Nat) (key : Value) (rest : List Value)
    (acc : List Field) (h : ¬ wellFormedPair (key :: rest) 0) :
    handleFieldsLoop l seen (key :: rest) acc =
      ⟨if l.core.Enabled zapcore.DPanicLevel && l.core.sampled zapcore.DPanicLevel seen then
          [Event.write (stopDiagnostic l key rest.isEmpty)]
        else [],
       if l.development then Result.panicked else Result.returned acc⟩ := by
  unfold wellFormedPair at h
  cases hf : key.asField.isSome
  · cases rest with
    | nil =>
      simp only [handleFieldsLoop, hf, DPanic_eq, Outcome.bind, Outcome.pure, stopDiagnostic,
        diagnostic]
      cases l.development <;> simp
    | cons val rest2 =>
      cases hs : key.asString with
      | none =>
        simp only [handleFieldsLoop, hf, hs, DPanic_eq, Outcome.bind, Outcome.pure,
          stopDiagnostic, diagnostic]
        cases l.development <;> simp
      | some keyStr =>
        exfalso
        apply h
        cases key <;> simp [Value.asString] at hs
        simp
  · cases rest <;>
      simp only [handleFieldsLoop, hf, DPanic_eq, Outcome.bind, Outcome.pure, stopDiagnostic,
        diagnostic] <;>
      cases l.development <;> simp

theorem wellFormedPair_drop (args : List Value) (k : Nat) :
    wellFormedPair (args.drop (2 * k)) 0 ↔ wellFormedPair args k := by
  unfold wellFormedPair
  simp only [List.length_drop, List.getElem?_drop, Nat.mul_zero, Nat.add_zero, Nat.zero_add]
  constructor
  · rintro ⟨h1, h2⟩
    exact ⟨by omega, h2⟩
  · rintro ⟨h1, h2⟩
    exact ⟨by omega, h2⟩

/-- What `handleFields` does on every input.  With `k` the number of leading
well-formed pairs: the fields of these pairs followed by `additional`; when
input is left at index `2k`, one `DPanic` call about `args[2k]`. -/
theorem handleFields_eq (l : zap.Logger) (seen : Nat) (args : List Value)
    (additional : List Field)
    (k : Nat) (hgood : ∀ j, j < k → wellFormedPair args j) (hstop : ¬ wellFormedPair args k) :
    handleFields l seen args additional =
      if 2 * k < args.length then
        ⟨if l.core.Enabled zapcore.DPanicLevel && l.core.sampled zapcore.DPanicLevel seen then
            [Event.write (stopDiagnostic l (args.getD (2 * k) Value.nil)
              (decide (2 * k + 1 = args.length)))]
          else [],
         if l.development then Result.panicked
         else Result.returned (derived args k ++ additional)⟩
      else ⟨[], Result.returned (derived args k ++ additional)⟩ := by
  have hloop := handleFieldsLoop_pairs l seen k args [] hgood
  rw [List.nil_append] at hloop
  unfold handleFields
  by_cases hlen : 2 * k < args.length
  · have hne : ¬ args.length = 0 := by omega
    rw [if_neg hne, if_pos hlen, hloop]
    have hdrop : args.drop (2 * k) =
        args.getD (2 * k) Value.nil :: args.drop (2 * k + 1) := by
      rw [List.getD_eq_getElem _ _ hlen]
      exact List.drop_eq_getElem_cons hlen
    have hstop2 : ¬ wellFormedPair
        (args.getD (2 * k) Value.nil :: args.drop (2 * k + 1)) 0 := by
      rw [← hdrop, wellFormedPair_drop]
      exact hstop
    rw [hdrop, handleFieldsLoop_stop l seen _ _ _ hstop2]
    have hlast : (List.drop (2 * k + 1) args).isEmpty = decide (2 * k + 1 = args.length) := by
      have hl := List.length_drop (2 * k + 1) args
      cases hd : List.drop (2 * k + 1) args with
      | nil =>
        rw [hd] at hl
        simp only [List.length_nil] at hl
        simp only [List.isEmpty_nil, true_eq_decide_iff]
        omega
      | cons a t =>
        rw [hd] at hl
        simp only [List.length_cons] at hl
        simp only [List.isEmpty_cons, false_eq_decide_iff]
        omega
    rw [hlast]
    unfold Outcome.bind Outcome.pure
    cases l.development <;> simp
  · rw [if_neg hlen]
    have hd : args.drop (2 * k) = [] := List.drop_eq_nil_of_le (by omega)
    rw [hd] at hloop
    by_cases h0 : args.length = 0
    · rw [if_pos h0]
      have hk : k = 0 := by
        rcases Nat.eq_zero_or_pos k with h | h
        · exact h
        · have := (hgood 0 h).1
          omega
      subst hk
      simp [derived, Outcome.pure]
    · rw [if_neg h0, hloop]
      simp [handleFieldsLoop, Outcome.bind, Outcome.pure]

/-- The fields of `k` well-formed leading pairs, position by position. -/
theorem derived_getElem (args : List Value) (k : Nat)
    (hgood : ∀ j, j < k → wellFormedPair args j) :
    ∀ j, j < k → ∃ s v, args[2 * j]? = some (Value.str s) ∧ args[2 * j + 1]? = some v ∧
      (derived args k)[j]? = some (zap.Any s v) := by
  intro j hj
  obtain ⟨hlen, s, hs⟩ := hgood j hj
  refine ⟨s, args.getD (2 * j + 1) Value.nil, hs, ?_, ?_⟩
  · rw [List.getD_eq_getElem _ _ hlen]
    exact List.getElem?_eq_getElem hlen
  · unfold derived
    rw [List.getElem?_map, List.getElem?_range hj]
    simp [fieldAt, List.getD_eq_getElem?_getD, hs, Value.asString]

/-- Every argument list has a number of leading well-formed pairs. -/
theorem exists_leading_pairs (args : List Value) :
    ∃ k, (∀ j, j < k → wellFormedPair args j) ∧ ¬ wellFormedPair args k := by
  classical
  have hex : ∃ k, ¬ wellFormedPair args k :=
    ⟨args.length, fun h => by unfold wellFormedPair at h; omega⟩
  refine ⟨Nat.find hex, ?_, Nat.find_spec hex⟩
  intro j hj
  exact not_not.mp (Nat.find_min hex hj)

/-- A logger that is not in development mode returns from `handleFields` on
every input, having written at most one record. -/
theorem handleFields_production (l : zap.Logger) (hprod : l.development = false)
    (seen : Nat) (args : List Value) (additional : List Field) :
    (∃ fs, (handleFields l seen args additional).result = Result.returned fs) ∧
      (records (handleFields l seen args additional).events).length ≤ 1 := by
  obtain ⟨k, hgood, hstop⟩ := exists_leading_pairs args
  rw [handleFields_eq l seen args additional k hgood hstop]
  by_cases hlen : 2 * k < args.length
  · rw [if_pos hlen]
    simp only [hprod]
    refine ⟨⟨_, rfl⟩, ?_⟩
    cases (l.core.Enabled zapcore.DPanicLevel && l.core.sampled zapcore.DPanicLevel seen) <;>
      simp [records]
  · rw [if_neg hlen]
    exact ⟨⟨_, rfl⟩, by simp [records]⟩

/-- A logger in development mode panics in `handleFields` exactly when input
is left after the leading well-formed pairs. -/
theorem handleFields_development (l : zap.Logger) (hdev : l.development = true)
    (seen : Nat) (args : List Value) (additional : List Field) (k : Nat)
    (hgood : ∀ j, j < k → wellFormedPair args j) (hstop : ¬ wellFormedPair args k) :
    ((handleFields l seen args additional).result = Result.panicked ↔ 2 * k < args.length) ∧
      (¬ 2 * k < args.length →
        (handleFields l seen args additional).result =
          Result.returned (derived args k ++ additional)) := by
  rw [handleFields_eq l seen args additional k hgood hstop]
  by_cases hlen : 2 * k < args.length
  · simp [hlen, hdev]
  · simp [hlen]

/-- The two outcomes of `check`: the nil entry, when no core accepted the
entry and it has no terminal behaviour; or an entry that records whether the
core accepted it, which it does when it enables the level and the sampler lets
the entry pass. -/
theorem check_cases (log : zap.Logger) (seen : Nat) (lvl : zapcore.Level) (msg : Text) :
    (log.check seen lvl msg = none ∧
        (log.core.Enabled lvl && log.core.sampled lvl seen) = false) ∨
      log.check seen lvl msg =
        some ⟨lvl, log.name, msg, log.fields,
          log.core.Enabled lvl && log.core.sampled lvl seen, terminalAction log lvl⟩ := by
  unfold zap.Logger.check terminalAction
  simp only
  generalize (if lvl = zapcore.PanicLevel then zapcore.CheckWriteAction.WriteThenPanic
    else if lvl = zapcore.FatalLevel then zapcore.CheckWriteAction.WriteThenFatal
    else if lvl = zapcore.DPanicLevel ∧ log.development = true then
      zapcore.CheckWriteAction.WriteThenPanic
    else zapcore.CheckWriteAction.WriteThenNoop) = sh
  by_cases h1 : lvl < zapcore.DPanicLevel ∧ log.core.Enabled lvl = false
  · rw [if_pos h1]
    exact Or.inl ⟨rfl, by simp [h1.2]⟩
  · rw [if_neg h1]
    by_cases h2 : (log.core.Enabled lvl && log.core.sampled lvl seen) = false ∧
        sh = zapcore.CheckWriteAction.WriteThenNoop
    · rw [if_pos h2]
      exact Or.inl ⟨rfl, h2.1⟩
    · rw [if_neg h2]
      exact Or.inr rfl

/-- The method `check` at a level the core enables, for an entry the sampler
lets pass: the entry exists and a core has accepted it. -/
theorem check_accepted (log : zap.Logger) (seen : Nat) (lvl : zapcore.Level) (msg : Text)
    (h : log.core.Enabled lvl = true) (hs : log.core.sampled lvl seen = true) :
    ∃ sh, log.check seen lvl msg = some ⟨lvl, log.name, msg, log.fields, true, sh⟩ := by
  rcases check_cases log seen lvl msg with ⟨-, hf⟩ | hc
  · simp [h, hs] at hf
  · rw [h, hs] at hc
    exact ⟨_, hc⟩

/-- The method `check` at a level below `DPanicLevel` that the core disables. -/
theorem check_disabled (log : zap.Logger) (seen : Nat) (lvl : zapcore.Level) (msg : Text)
    (hl : lvl < zapcore.DPanicLevel) (h : log.core.Enabled lvl = false) :
    log.check seen lvl msg = none := by
  rw [check_below log seen lvl msg hl, h]
  simp

/-- The method `check` at a level below `DPanicLevel` for an entry that the
sampler drops. -/
theorem check_dropped (log : zap.Logger) (seen : Nat) (lvl : zapcore.Level) (msg : Text)
    (hl : lvl < zapcore.DPanicLevel) (h : log.core.sampled lvl seen = false) :
    log.check seen lvl msg = none := by
  rw [check_below log seen lvl msg hl, h]
  simp

/-- The events of `Write`: the one record when a core accepted the entry. -/
theorem Write_events (ce : zapcore.CheckedEntry) (fields : List Field) :
    (ce.Write fields).events =
      if ce.willWrite then
        [Event.write ⟨ce.Level, ce.LoggerName, ce.Message, ce.context ++ fields⟩]
      else [] := by
  unfold zapcore.CheckedEntry.Write
  cases ce.should <;> rfl

/-- How `Write` ends is decided by the terminal behaviour of the entry alone. -/
theorem Write_result (ce : zapcore.CheckedEntry) (fields : List Field) :
    (ce.Write fields).result =
      match ce.should with
      | zapcore.CheckWriteAction.WriteThenNoop => Result.returned ()
      | zapcore.CheckWriteAction.WriteThenPanic => Result.panicked
      | zapcore.CheckWriteAction.WriteThenFatal => Result.exited := by
  unfold zapcore.CheckedEntry.Write
  cases ce.should <;> rfl

theorem records_append (xs ys : List Event) :
    records (xs ++ ys) = records xs ++ records ys := by
  induction xs with
  | nil => rfl
  | cons e es ih => cases e <;> simp [records, ih]

/-- Whether `Check` declines does not depend on the message. -/
theorem Check_none_of_none (log : zap.Logger) (seen : Nat) (lvl : zapcore.Level)
    (m1 m2 : Text) (h : log.Check seen lvl m1 = none) : log.Check seen lvl m2 = none := by
  unfold zap.Logger.Check zap.Logger.check at *
  simp only at h ⊢
  generalize (if lvl = zapcore.PanicLevel then zapcore.CheckWriteAction.WriteThenPanic
    else if lvl = zapcore.FatalLevel then zapcore.CheckWriteAction.WriteThenFatal
    else if lvl = zapcore.DPanicLevel ∧ log.development = true then
      zapcore.CheckWriteAction.WriteThenPanic
    else zapcore.CheckWriteAction.WriteThenNoop) = sh at h ⊢
  by_cases h1 : lvl < zapcore.DPanicLevel ∧ log.core.Enabled lvl = false
  · rw [if_pos h1]
  · rw [if_neg h1] at h ⊢
    by_cases h2 : (log.core.Enabled lvl && log.core.sampled lvl seen) = false ∧
        sh = zapcore.CheckWriteAction.WriteThenNoop
    · rw [if_pos h2]
    · rw [if_neg h2] at h
      simp at h

/-- On a capability whose backend declines, `Info` does nothing. -/
theorem Info_declined (l : infoLogger) (seen : Nat) (msg : String) (fields : List Field)
    (h : l.log.Check seen l.level (Text.lit msg) = none) :
    l.Info seen msg fields = ⟨[], Result.returned ()⟩ := by
  unfold infoLogger.Info
  rw [h]
  rfl

/-- On a capability whose backend declines, `Infow` does nothing: the key-value
list is not normalized, whatever it holds. -/
theorem Infow_declined (l : infoLogger) (seen seenDiag : Nat) (msg : String)
    (kvs : List Value) (h : l.log.Check seen l.level (Text.lit msg) = none) :
    l.Infow seen seenDiag msg kvs = ⟨[], Result.returned ()⟩ := by
  unfold infoLogger.Infow
  rw [h]
  rfl

/-- On a capability whose backend declines, `Infof` writes nothing, but it has
evaluated `fmt.Sprintf` on its arguments. -/
theorem Infof_declined (l : infoLogger) (seen : Nat) (format : String) (args : List Value)
    (h : l.log.Check seen l.level (Text.sprintf format args) = none) :
    l.Infof seen format args = ⟨[Event.format format args], Result.returned ()⟩ := by
  unfold infoLogger.Infof fmt.Sprintf Outcome.bind
  simp [h, Outcome.pure]

/-- The method `Infof` evaluates `fmt.Sprintf` on every call, whatever `Check`
answers afterwards. -/
theorem Infof_formats (l : infoLogger) (seen : Nat) (format : String) (args : List Value) :
    formats (l.Infof seen format args).events = [(format, args)] := by
  unfold infoLogger.Infof fmt.Sprintf Outcome.bind
  simp only
  cases hc : l.log.Check seen l.level (Text.sprintf format args) with
  | none => simp [Outcome.pure, formats]
  | some ce =>
    simp only [Write_events]
    cases ce.willWrite <;> simp [formats]

/-- Within the range of `int8`, the verbosity gate is monotone. -/
theorem V_monotone_in_range (l : zapLogger) (m n : Int) (hm : -127 ≤ m) (hmn : m ≤ n)
    (hn : n ≤ 128) (h : (l.V n).Enabled = true) : (l.V m).Enabled = true := by
  have e : ∀ x : Int, -127 ≤ x → x ≤ 128 → int8 (int64 (-1 * x)) = -x := by
    intro x h1 h2
    unfold int8 int64
    omega
  unfold zapLogger.V at h ⊢
  simp only [e n (by omega) hn, e m hm (by omega), zap.Logger.Core] at h ⊢
  by_cases hen : l.zapLogger.core.Enabled (-n) = true
  · have hem : l.zapLogger.core.Enabled (-m) = true := by
      unfold zapcore.Core.Enabled at hen ⊢
      simp only [decide_eq_true_eq] at hen ⊢
      have hle : -n ≤ -m := by omega
      exact le_trans hen hle
    simp [hem, InfoLogger.Enabled, infoLogger.Enabled]
  · simp [hen, disabledInfoLogger, InfoLogger.Enabled] at h

/-! ## Lemmas on the heap and on derivation -/

theorem Heap.lt_of_get? (h : Heap) (p : Nat) (q : zapLogger) (hp : h.get? p = some q) :
    p < h.objs.length := by
  unfold Heap.get? at hp
  obtain ⟨hlt, -⟩ := List.getElem?_eq_some.mp hp
  exact hlt

/-- Allocation leaves every struct allocated before in place. -/
theorem Heap.get?_alloc_old (h : Heap) (o : zapLogger) (p : Nat) (q : zapLogger)
    (hp : h.get? p = some q) : (h.alloc o).1.get? p = some q := by
  have hlt := h.lt_of_get? p q hp
  unfold Heap.get? at hp ⊢
  unfold Heap.alloc
  simp only
  rw [List.getElem?_append_left hlt]
  exact hp

/-- Allocation yields the address of the new struct. -/
theorem Heap.get?_alloc_new (h : Heap) (o : zapLogger) :
    (h.alloc o).1.get? (h.alloc o).2 = some o := by
  unfold Heap.get? Heap.alloc
  simp

/-- The new address differs from every address allocated before. -/
theorem Heap.alloc_ne (h : Heap) (o : zapLogger) (p : Nat) (q : zapLogger)
    (hp : h.get? p = some q) : (h.alloc o).2 ≠ p := by
  have hlt := h.lt_of_get? p q hp
  unfold Heap.alloc
  simp only
  exact Nat.ne_of_gt hlt

/-- Assignment at one address leaves the other addresses alone. -/
theorem Heap.get?_set_ne (h : Heap) (o : zapLogger) (p q : Nat) (hne : q ≠ p) :
    (h.set q o).get? p = h.get? p := by
  unfold Heap.get? Heap.set
  simp only
  rw [List.getElem?_set_ne hne]

/-- Assignment at an allocated address stores the struct there. -/
theorem Heap.get?_set_eq (h : Heap) (o q : zapLogger) (p : Nat) (hp : h.get? p = some q) :
    (h.set p o).get? p = some o := by
  have hlt := h.lt_of_get? p q hp
  unfold Heap.get? Heap.set
  simp only
  rw [List.getElem?_set_self hlt]

theorem With_fields (log : zap.Logger) (fs : List Field) :
    log.With fs = { log with fields := log.fields ++ fs } := by
  unfold zap.Logger.With
  cases fs <;> simp

/-- What `WithValues` does on an allocated receiver: the outcome of
`handleFields`, and after a normal return a new struct on the backend with the
fields added. -/
theorem WithValues_eq (h : Heap) (l : Nat) (o : zapLogger) (hl : h.get? l = some o)
    (seen : Nat) (kvs : List Value) :
    zapLogger.WithValues h l seen kvs =
      match (handleFields o.zapLogger seen kvs []).result with
      | Result.returned fs =>
        ((h.alloc ⟨o.zapLogger.With fs, ⟨zapcore.InfoLevel, o.zapLogger.With fs⟩⟩).1,
          ⟨(handleFields o.zapLogger seen kvs []).events,
            Result.returned (h.alloc ⟨o.zapLogger.With fs,
              ⟨zapcore.InfoLevel, o.zapLogger.With fs⟩⟩).2⟩)
      | Result.panicked => (h, ⟨(handleFields o.zapLogger seen kvs []).events, Result.panicked⟩)
      | Result.exited => (h, ⟨(handleFields o.zapLogger seen kvs []).events, Result.exited⟩) := by
  unfold zapLogger.WithValues NewLogger
  rw [hl]

/-- The function `WithValues` leaves every allocated struct in place. -/
theorem WithValues_frame (h : Heap) (l : Nat) (seen : Nat) (kvs : List Value) (p : Nat)
    (q : zapLogger) (hp : h.get? p = some q) :
    (zapLogger.WithValues h l seen kvs).1.get? p = some q := by
  unfold zapLogger.WithValues NewLogger
  cases hl : h.get? l with
  | none => exact hp
  | some o =>
    simp only
    cases (handleFields o.zapLogger seen kvs []).result with
    | returned fs => exact Heap.get?_alloc_old h _ p q hp
    | panicked => exact hp
    | exited => exact hp

/-- The function `WithName` leaves every allocated struct in place. -/
theorem WithName_frame (h : Heap) (l : Nat) (s : String) (p : Nat) (q : zapLogger)
    (hp : h.get? p = some q) : (zapLogger.WithName h l s).1.get? p = some q := by
  unfold zapLogger.WithName NewLogger
  cases hl : h.get? l with
  | none => exact hp
  | some o => exact Heap.get?_alloc_old h _ p q hp

/-- What `L` does on an allocated receiver: a copy of the struct at a new
address, with the two context fields added to the backend of the copy. -/
theorem L_eq (K1 K2 : String) (h : Heap) (l : Nat) (o : zapLogger) (hl : h.get? l = some o)
    (ctx : Context) :
    zapLogger.L K1 K2 h l ctx =
      (((h.alloc o).1).set (h.alloc o).2
          ⟨o.zapLogger.With
            [zap.Str K1 (((ctx.Value (Value.str K1)).asString).getD ""),
             zap.Str K2 (((ctx.Value (Value.str K2)).asString).getD "")], o.infoLogger⟩,
        ⟨[], Result.returned (h.alloc o).2⟩) := by
  unfold zapLogger.L zapLogger.clone
  rw [hl]
  simp only [Heap.get?_alloc_new]

/-- The function `L` leaves every allocated struct in place. -/
theorem L_frame (K1 K2 : String) (h : Heap) (l : Nat) (ctx : Context) (p : Nat)
    (q : zapLogger) (hp : h.get? p = some q) :
    (zapLogger.L K1 K2 h l ctx).1.get? p = some q := by
  cases hl : h.get? l with
  | none =>
    unfold zapLogger.L zapLogger.clone
    rw [hl]
    exact hp
  | some o =>
    rw [L_eq K1 K2 h l o hl ctx]
    simp only
    rw [Heap.get?_set_ne _ _ _ _ (Heap.alloc_ne h o p q hp)]
    exact Heap.get?_alloc_old h o p q hp

/-! ## The normalizer: claims -/

/-- C1: on an argument list of even length whose key positions all hold
strings, `handleFields` writes no record (the trace of events is empty) and
returns `len(args)/2` derived fields followed by `additional`; the `j`-th
derived field is `zap.Any(args[2j], args[2j+1])`.  This holds for every
logger, in development mode or not, and whatever the sampler has counted. -/
theorem handleFields_well_formed (l : zap.Logger) (seen : Nat) (args : List Value)
    (additional : List Field) (heven : args.length % 2 = 0)
    (hkeys : ∀ i, i < args.length → i % 2 = 0 → ∃ s, args[i]? = some (Value.str s)) :
    ∃ fs, handleFields l seen args additional = ⟨[], Result.returned (fs ++ additional)⟩ ∧
      fs.length = args.length / 2 ∧
      ∀ j, j < args.length / 2 →
        ∃ s v, args[2 * j]? = some (Value.str s) ∧ args[2 * j + 1]? = some v ∧
          fs[j]? = some (zap.Any s v) := by
  have hgood : ∀ j, j < args.length / 2 → wellFormedPair args j := by
    intro j hj
    exact ⟨by omega, hkeys (2 * j) (by omega) (by omega)⟩
  have hstop : ¬ wellFormedPair args (args.length / 2) := by
    intro h
    have := h.1
    omega
  refine ⟨derived args (args.length / 2), ?_, derived_length _ _,
    derived_getElem args _ hgood⟩
  rw [handleFields_eq l seen args additional _ hgood hstop]
  have hlen : ¬ 2 * (args.length / 2) < args.length := by omega
  rw [if_neg hlen]

/-- C1, witness: two pairs and a suffix on a development logger. -/
theorem handleFields_well_formed_witness :
    evenArgs.length % 2 = 0 ∧
    ∃ fs, handleFields devLogger 1 evenArgs suffixFields =
        ⟨[], Result.returned (fs ++ suffixFields)⟩ ∧
      fs.length = evenArgs.length / 2 ∧
      ∀ j, j < evenArgs.length / 2 →
        ∃ s v, evenArgs[2 * j]? = some (Value.str s) ∧ evenArgs[2 * j + 1]? = some v ∧
          fs[j]? = some (zap.Any s v) :=
  ⟨by decide, handleFields_well_formed devLogger 1 evenArgs suffixFields (by decide) (by
    intro i hi h2
    have hi4 : i < 4 := hi
    interval_cases i
    · exact ⟨"a", rfl⟩
    · simp at h2
    · exact ⟨"b", rfl⟩
    · simp at h2)⟩

/-- C2, as amended: on an argument list of odd length whose key positions
before the last element hold strings, `handleFields` makes one `DPanic` call
about the last element.  The record is written exactly when the core enables
`DPanicLevel` and the sampler lets the entry pass (`seen` is what the sampler
has counted); it carries the last element under "ignore key" with the
odd-number message, unless the last element is itself a typed field, which is
reported under "zap field" with the typed-field message.  A logger that is not
in development mode then returns the `(len(args)-1)/2` pairs before the orphan,
in order, followed by `additional`; a logger in development mode panics. -/
theorem handleFields_orphan (l : zap.Logger) (seen : Nat) (args : List Value)
    (additional : List Field) (hodd : args.length % 2 = 1)
    (hkeys : ∀ i, i + 1 < args.length → i % 2 = 0 → ∃ s, args[i]? = some (Value.str s)) :
    ∃ last fs, args[args.length - 1]? = some last ∧
      (handleFields l seen args additional).events =
        (if l.core.Enabled zapcore.DPanicLevel && l.core.sampled zapcore.DPanicLevel seen then
          [Event.write
            (if last.asField.isSome then
              diagnostic l "strongly-typed Zap Field passed to logr" "zap field" last
            else
              diagnostic l "odd number of arguments passed as key-value pairs for logging"
                "ignore key" last)]
        else []) ∧
      (handleFields l seen args additional).result =
        (if l.development then Result.panicked else Result.returned (fs ++ additional)) ∧
      fs.length = (args.length - 1) / 2 ∧
      ∀ j, j < (args.length - 1) / 2 →
        ∃ s v, args[2 * j]? = some (Value.str s) ∧ args[2 * j + 1]? = some v ∧
          fs[j]? = some (zap.Any s v) := by
  have hgood : ∀ j, j < (args.length - 1) / 2 → wellFormedPair args j := by
    intro j hj
    exact ⟨by omega, hkeys (2 * j) (by omega) (by omega)⟩
  have hstop : ¬ wellFormedPair args ((args.length - 1) / 2) := by
    intro h
    have := h.1
    omega
  have hk : 2 * ((args.length - 1) / 2) = args.length - 1 := by omega
  have hlen : 2 * ((args.length - 1) / 2) < args.length := by omega
  have hlt : args.length - 1 < args.length := by omega
  refine ⟨args.getD (args.length - 1) Value.nil, derived args ((args.length - 1) / 2), ?_, ?_,
    ?_, derived_length _ _, derived_getElem args _ hgood⟩
  · rw [List.getD_eq_getElem _ _ hlt]
    exact List.getElem?_eq_getElem hlt
  · rw [handleFields_eq l seen args additional _ hgood hstop, if_pos hlen, hk]
    have hd : decide (args.length - 1 + 1 = args.length) = true := by
      simp only [decide_eq_true_eq]
      omega
    simp only [hd, stopDiagnostic]
    cases (l.core.Enabled zapcore.DPanicLevel && l.core.sampled zapcore.DPanicLevel seen) <;>
      cases (args.getD (args.length - 1) Value.nil).asField.isSome <;> simp
  · rw [handleFields_eq l seen args additional _ hgood hstop, if_pos hlen]

/-- C2, witness: the argument list of `Infow("msg", "a", 1, "b")` on a production logger. -/
theorem handleFields_orphan_witness :
    oddArgs.length % 2 = 1 ∧
    ∃ last fs, oddArgs[oddArgs.length - 1]? = some last ∧
      (handleFields prodLogger 1 oddArgs []).events =
        (if prodLogger.core.Enabled zapcore.DPanicLevel &&
            prodLogger.core.sampled zapcore.DPanicLevel 1 then
          [Event.write
            (if last.asField.isSome then
              diagnostic prodLogger "strongly-typed Zap Field passed to logr" "zap field" last
            else
              diagnostic prodLogger
                "odd number of arguments passed as key-value pairs for logging"
                "ignore key" last)]
        else []) ∧
      (handleFields prodLogger 1 oddArgs []).result =
        (if prodLogger.development then Result.panicked else Result.returned (fs ++ [])) ∧
      fs.length = (oddArgs.length - 1) / 2 ∧
      ∀ j, j < (oddArgs.length - 1) / 2 →
        ∃ s v, oddArgs[2 * j]? = some (Value.str s) ∧ oddArgs[2 * j + 1]? = some v ∧
          fs[j]? = some (zap.Any s v) :=
  ⟨by decide, handleFields_orphan prodLogger 1 oddArgs [] (by decide) (by
    intro i hi h2
    have hi2 : i < 2 := by
      have : oddArgs.length = 3 := rfl
      omega
    interval_cases i
    · exact ⟨"a", rfl⟩
    · simp at h2)⟩

/-- C2, counterexample: odd argument lists with string keys before the last
element.  (1) When the last element is a typed field, the one record written
is the typed-field diagnostic, not a record about an ignored key.  (2) On a
development logger the call panics instead of returning the field `a=1`.
(3) On a logger whose minimum level is `fatal` no record is written.  (4) On
the default logger no record is written for the 101st such entry of a second,
which the sampler drops. -/
theorem handleFields_orphan_counterexample :
    (oddArgsTyped.length % 2 = 1 ∧
      records (handleFields prodLogger 1 oddArgsTyped []).events =
        [diagnostic prodLogger "strongly-typed Zap Field passed to logr" "zap field"
          (Value.field "k" (Value.int 2))] ∧
      records (handleFields prodLogger 1 oddArgsTyped []).events ≠
        [diagnostic prodLogger "odd number of arguments passed as key-value pairs for logging"
          "ignore key" (Value.field "k" (Value.int 2))]) ∧
    (oddArgs.length % 2 = 1 ∧
      (handleFields devLogger 1 oddArgs []).result = Result.panicked ∧
      (handleFields devLogger 1 oddArgs []).result ≠
        Result.returned [zap.Any "a" (Value.int 1)]) ∧
    (records (handleFields fatalLogger 1 oddArgs []).events = [] ∧
      (handleFields fatalLogger 1 oddArgs []).result =
        Result.returned [zap.Any "a" (Value.int 1)]) ∧
    (records (handleFields prodLogger 101 oddArgs []).events = [] ∧
      (handleFields prodLogger 101 oddArgs []).result =
        Result.returned [zap.Any "a" (Value.int 1)]) := by
  decide

/-- The backend of a logger that `New` has built is in development mode
exactly when the options say so. -/
theorem New_development (env : Env) (h h1 : Heap) (opts : Options) (evs : List Event)
    (p : Ptr) (z : zapLogger)
    (hnew : New env h (some opts) = (h1, ⟨evs, Result.returned p⟩))
    (hz : h1.get? p = some z) : z.zapLogger.development = opts.Development := by
  unfold New at hnew
  simp only at hnew
  split at hnew
  · simp at hnew
  · rename_i l hb
    simp only [Heap.alloc, Prod.mk.injEq, Outcome.mk.injEq, Result.returned.injEq] at hnew
    obtain ⟨hh, -, hp⟩ := hnew
    subst hh hp
    simp only [Heap.get?, List.getElem?_concat_length, Option.some.injEq] at hz
    subst hz
    unfold zap.Config.Build at hb
    simp only at hb
    split at hb
    · simp at hb
    · split at hb
      · simp at hb
      · split at hb
        · simp at hb
        · simp only [Option.some.injEq] at hb
          subst hb
          unfold zap.Logger.Named
          split
          · rfl
          · split <;> rfl

/-- How `Infow` ends on a backend that is not in development mode: as the
terminal behaviour of its level says when `Check` returned an entry, and
normally otherwise; the key-value list plays no part. -/
theorem Infow_result_production (c : infoLogger) (hprod : c.log.development = false)
    (seen seenDiag : Nat) (msg : String) (kvs : List Value) :
    (c.Infow seen seenDiag msg kvs).result =
      if (c.log.Check seen c.level (Text.lit msg)).isSome then
        match terminalAction c.log c.level with
        | zapcore.CheckWriteAction.WriteThenNoop => Result.returned ()
        | zapcore.CheckWriteAction.WriteThenPanic => Result.panicked
        | zapcore.CheckWriteAction.WriteThenFatal => Result.exited
      else Result.returned () := by
  obtain ⟨fs, hfs⟩ := (handleFields_production c.log hprod seenDiag kvs []).1
  unfold infoLogger.Infow zap.Logger.Check
  rcases check_cases c.log seen c.level (Text.lit msg) with ⟨hn, -⟩ | hc
  · rw [hn]
    rfl
  · rw [hc]
    simp only [Outcome.bind, hfs, Write_result, Option.isSome_some, if_true]

/-- How `Infow` ends on a backend in development mode when the key-value list
is malformed: it panics when `Check` returned an entry, and returns otherwise. -/
theorem Infow_result_development (c : infoLogger) (hdev : c.log.development = true)
    (seen seenDiag : Nat) (msg : String) (kvs : List Value) (k : Nat)
    (hgood : ∀ j, j < k → wellFormedPair kvs j) (hstop : ¬ wellFormedPair kvs k)
    (hlen : 2 * k < kvs.length) :
    (c.Infow seen seenDiag msg kvs).result =
      if (c.log.Check seen c.level (Text.lit msg)).isSome then Result.panicked
      else Result.returned () := by
  have hp := ((handleFields_development c.log hdev seenDiag kvs [] k hgood hstop).1).2 hlen
  unfold infoLogger.Infow zap.Logger.Check
  rcases check_cases c.log seen c.level (Text.lit msg) with ⟨hn, -⟩ | hc
  · rw [hn]
    rfl
  · rw [hc]
    simp only [Outcome.bind, hp, Option.isSome_some, if_true]

/-- C3, as amended: for every configuration accepted by `New` and every
key-value list, well formed or not.  With `Development = false`:
`handleFields` on the logger returns normally and writes at most one record;
`WithValues` returns normally; `Infow` on the capability `V(n)` ends as it does
on the empty list, and it returns normally unless the level computed for `n`
is `PanicLevel` or `FatalLevel`.  With `Development = true`, where `k` is the
number of leading well-formed pairs: `handleFields` and `WithValues` panic
exactly when the list is malformed (`2k < len`), and on a malformed list
`Infow` on `V(n)` panics when `V(n)` is live and `Check` has returned an entry for
the message, and returns normally otherwise. -/
theorem handleFields_never_panics_in_production (env : Env) (h h1 : Heap)
    (opts : Options) (evs : List Event) (p : Ptr) (z : zapLogger)
    (hnew : New env h (some opts) = (h1, ⟨evs, Result.returned p⟩))
    (hz : h1.get? p = some z) (seen seenDiag : Nat)
    (args : List Value) (additional : List Field) :
    (opts.Development = false →
      (∃ fs, (handleFields z.zapLogger seen args additional).result = Result.returned fs) ∧
      (records (handleFields z.zapLogger seen args additional).events).length ≤ 1 ∧
      (∃ c, (zapLogger.WithValues h1 p seen args).2.result = Result.returned c) ∧
      ∀ (n : Int) (msg : String),
        ((z.V n).Infow seen seenDiag msg args).result =
          ((z.V n).Infow seen seenDiag msg []).result ∧
        (int8 (int64 (-1 * n)) ≠ zapcore.PanicLevel →
          int8 (int64 (-1 * n)) ≠ zapcore.FatalLevel →
          ((z.V n).Infow seen seenDiag msg args).result = Result.returned ())) ∧
    (opts.Development = true →
      ∀ k, (∀ j, j < k → wellFormedPair args j) → ¬ wellFormedPair args k →
        ((handleFields z.zapLogger seen args additional).result = Result.panicked ↔
          2 * k < args.length) ∧
        ((zapLogger.WithValues h1 p seen args).2.result = Result.panicked ↔
          2 * k < args.length) ∧
        ∀ (n : Int) (msg : String), 2 * k < args.length →
          ((z.V n).Infow seen seenDiag msg args).result =
            (if z.zapLogger.Core.Enabled (int8 (int64 (-1 * n))) = true ∧
                (z.zapLogger.Check seen (int8 (int64 (-1 * n))) (Text.lit msg)).isSome
                  = true then Result.panicked
              else Result.returned ())) := by
  have hd := New_development env h h1 opts evs p z hnew hz
  refine ⟨?_, ?_⟩
  · intro hprod
    rw [hprod] at hd
    have hf := fun a b => handleFields_production z.zapLogger hd seen a b
    refine ⟨(hf args additional).1, (hf args additional).2, ?_, ?_⟩
    · obtain ⟨fs, hfs⟩ := (hf args []).1
      rw [WithValues_eq h1 p z hz seen args]
      simp only [hfs]
      exact ⟨_, rfl⟩
    · intro n msg
      unfold zapLogger.V
      simp only
      generalize int8 (int64 (-1 * n)) = lvl
      by_cases hen : z.zapLogger.Core.Enabled lvl = true
      · simp only [hen, if_true, InfoLogger.Infow]
        have hc : (⟨lvl, z.zapLogger⟩ : infoLogger).log.development = false := hd
        rw [Infow_result_production _ hc, Infow_result_production _ hc]
        refine ⟨rfl, ?_⟩
        intro h4 h5
        have ht : terminalAction z.zapLogger lvl = zapcore.CheckWriteAction.WriteThenNoop := by
          unfold terminalAction
          simp [h4, h5, hd]
        simp only [ht]
        split <;> rfl
      · simp only [hen, disabledInfoLogger, InfoLogger.Infow, Outcome.pure]
        exact ⟨rfl, fun _ _ => rfl⟩
  · intro hdev k hgood hstop
    rw [hdev] at hd
    have hfd := handleFields_development z.zapLogger hd seen args additional k hgood hstop
    have hfd0 := handleFields_development z.zapLogger hd seen args [] k hgood hstop
    refine ⟨hfd.1, ?_, ?_⟩
    · rw [WithValues_eq h1 p z hz seen args]
      by_cases hlen : 2 * k < args.length
      · simp only [hfd0.1.2 hlen, hlen]
      · simp only [hfd0.2 hlen, hlen, iff_false]
        intro hc
        cases hc
    · intro n msg hlen
      unfold zapLogger.V
      simp only
      generalize int8 (int64 (-1 * n)) = lvl
      by_cases hen : z.zapLogger.Core.Enabled lvl = true
      · simp only [hen, if_true, InfoLogger.Infow, true_and]
        have hc : (⟨lvl, z.zapLogger⟩ : infoLogger).log.development = true := hd
        rw [Infow_result_development _ hc seen seenDiag msg args k hgood hstop hlen]
      · have hen2 : z.zapLogger.Core.Enabled lvl = false := by simpa using hen
        simp [hen2, disabledInfoLogger, InfoLogger.Infow, Outcome.pure]

/-- C3, witness: the default options with a list that has a non-string key,
and the default options in development mode with a list of odd length, whose
number of leading well-formed pairs is `1`. -/
theorem handleFields_never_panics_in_production_witness :
    (New okEnv ⟨[]⟩ (some NewOptions) = (⟨[stdLogger]⟩, ⟨[], Result.returned 0⟩) ∧
      ((∃ fs, (handleFields stdLogger.zapLogger 1 badKeyArgs suffixFields).result =
          Result.returned fs) ∧
        (records (handleFields stdLogger.zapLogger 1 badKeyArgs suffixFields).events).length
          ≤ 1 ∧
        (∃ c, (zapLogger.WithValues ⟨[stdLogger]⟩ 0 1 badKeyArgs).2.result =
          Result.returned c) ∧
        ∀ (n : Int) (msg : String),
          ((stdLogger.V n).Infow 1 1 msg badKeyArgs).result =
            ((stdLogger.V n).Infow 1 1 msg []).result ∧
          (int8 (int64 (-1 * n)) ≠ zapcore.PanicLevel →
            int8 (int64 (-1 * n)) ≠ zapcore.FatalLevel →
            ((stdLogger.V n).Infow 1 1 msg badKeyArgs).result = Result.returned ()))) ∧
    (New okEnv ⟨[]⟩ (some devOptions) = (⟨[devStdLogger]⟩, ⟨[], Result.returned 0⟩) ∧
      (((handleFields devStdLogger.zapLogger 1 oddArgs suffixFields).result =
          Result.panicked ↔ 2 * 1 < oddArgs.length) ∧
        ((zapLogger.WithValues ⟨[devStdLogger]⟩ 0 1 oddArgs).2.result = Result.panicked ↔
          2 * 1 < oddArgs.length) ∧
        ∀ (n : Int) (msg : String), 2 * 1 < oddArgs.length →
          ((devStdLogger.V n).Infow 1 1 msg oddArgs).result =
            (if devStdLogger.zapLogger.Core.Enabled (int8 (int64 (-1 * n))) = true ∧
                (devStdLogger.zapLogger.Check 1 (int8 (int64 (-1 * n))) (Text.lit msg)).isSome
                  = true then Result.panicked
              else Result.returned ()))) :=
  ⟨⟨by decide,
      (handleFields_never_panics_in_production okEnv ⟨[]⟩ ⟨[stdLogger]⟩ NewOptions [] 0
        stdLogger (by decide) (by decide) 1 1 badKeyArgs suffixFields).1 (by decide)⟩,
    ⟨by decide,
      (handleFields_never_panics_in_production okEnv ⟨[]⟩ ⟨[devStdLogger]⟩ devOptions [] 0
        devStdLogger (by decide) (by decide) 1 1 oddArgs suffixFields).2 (by decide) 1
        (by
          intro j hj
          have hj0 : j = 0 := by omega
          subst hj0
          exact ⟨by decide, "a", rfl⟩)
        (by
          intro hw
          have := hw.1
          simp [oddArgs] at this)⟩⟩

/-- C3, counterexample: `New` accepts the default options with
`Development = true`, and on the logger it builds each kind of malformed
key-value list (odd length, non-string key, typed field in a key position)
makes `handleFields` panic; `WithValues` and `Infow` on `V(0)` panic with it. -/
theorem handleFields_development_counterexample :
    New okEnv ⟨[]⟩ (some devOptions) = (⟨[devStdLogger]⟩, ⟨[], Result.returned 0⟩) ∧
    (handleFields devStdLogger.zapLogger 1 oddArgs []).result = Result.panicked ∧
    (handleFields devStdLogger.zapLogger 1 badKeyArgs []).result = Result.panicked ∧
    (handleFields devStdLogger.zapLogger 1 oddArgsTyped []).result = Result.panicked ∧
    (zapLogger.WithValues ⟨[devStdLogger]⟩ 0 1 oddArgs).2.result = Result.panicked ∧
    ((devStdLogger.V 0).Infow 1 1 "msg" oddArgs).result = Result.panicked := by
  decide

/-- C4, as amended: let `k` be the number of leading pairs that are fully
present and have a string key.  `handleFields` makes one `DPanic` call when
`2k < len(args)` and none otherwise; it writes one record exactly when
`2k < len(args)`, the core enables `DPanicLevel` and the sampler lets the entry
pass (`seen` is what the sampler has counted), and nothing else is
observable.  Unless the logger is in development mode and `2k < len(args)`, in
which case the call panics, it returns exactly the `k` fields
`zap.Any(args[2j], args[2j+1])` in order followed by `additional`, also when
normalization stopped early and also when `args` is empty. -/
theorem handleFields_first_failure (l : zap.Logger) (seen : Nat) (args : List Value)
    (additional : List Field) (k : Nat)
    (hgood : ∀ j, j < k → wellFormedPair args j) (hstop : ¬ wellFormedPair args k) :
    ∃ fs, fs.length = k ∧
      (∀ j, j < k →
        ∃ s v, args[2 * j]? = some (Value.str s) ∧ args[2 * j + 1]? = some v ∧
          fs[j]? = some (zap.Any s v)) ∧
      (handleFields l seen args additional).result =
        (if 2 * k < args.length ∧ l.development = true then Result.panicked
         else Result.returned (fs ++ additional)) ∧
      (records (handleFields l seen args additional).events).length =
        (if 2 * k < args.length ∧ l.core.Enabled zapcore.DPanicLevel = true ∧
            l.core.sampled zapcore.DPanicLevel seen = true then 1 else 0) ∧
      (handleFields l seen args additional).events.length =
        (records (handleFields l seen args additional).events).length := by
  refine ⟨derived args k, derived_length _ _, derived_getElem args k hgood, ?_⟩
  rw [handleFields_eq l seen args additional k hgood hstop]
  by_cases hlen : 2 * k < args.length
  · simp only [if_pos hlen, hlen, true_and]
    cases l.development <;> cases l.core.Enabled zapcore.DPanicLevel <;>
      cases l.core.sampled zapcore.DPanicLevel seen <;> simp [records]
  · simp [if_neg hlen, hlen, records]

/-- C4, witness: a list whose second pair has a non-string key, with a
suffix; one pair is kept. -/
theorem handleFields_first_failure_witness :
    ∃ fs, fs.length = 1 ∧
      (∀ j, j < 1 →
        ∃ s v, badKeyArgs[2 * j]? = some (Value.str s) ∧ badKeyArgs[2 * j + 1]? = some v ∧
          fs[j]? = some (zap.Any s v)) ∧
      (handleFields prodLogger 1 badKeyArgs suffixFields).result =
        (if 2 * 1 < badKeyArgs.length ∧ prodLogger.development = true then Result.panicked
         else Result.returned (fs ++ suffixFields)) ∧
      (records (handleFields prodLogger 1 badKeyArgs suffixFields).events).length =
        (if 2 * 1 < badKeyArgs.length ∧ prodLogger.core.Enabled zapcore.DPanicLevel = true ∧
            prodLogger.core.sampled zapcore.DPanicLevel 1 = true then 1 else 0) ∧
      (handleFields prodLogger 1 badKeyArgs suffixFields).events.length =
        (records (handleFields prodLogger 1 badKeyArgs suffixFields).events).length :=
  handleFields_first_failure prodLogger 1 badKeyArgs suffixFields 1
    (by
      intro j hj
      have hj0 : j = 0 := by omega
      subst hj0
      exact ⟨by decide, "a", rfl⟩)
    (by
      intro hw
      obtain ⟨-, s, hs⟩ := hw
      simp [badKeyArgs] at hs)

/-- C4, counterexample: on `oddArgs` the number of leading well-formed pairs is
`1` and input is left (`2 < 3`).  On a development logger `handleFields` panics
instead of returning the pair followed by the suffix; on a logger whose
minimum level is `fatal` it writes no record at all; on the default logger it
writes no record for the 101st such entry of a second, which the sampler
drops. -/
theorem handleFields_first_failure_counterexample :
    (wellFormedPair oddArgs 0 ∧ ¬ wellFormedPair oddArgs 1 ∧ 2 * 1 < oddArgs.length) ∧
    (handleFields devLogger 1 oddArgs suffixFields).result = Result.panicked ∧
    (handleFields devLogger 1 oddArgs suffixFields).result ≠
      Result.returned ([zap.Any "a" (Value.int 1)] ++ suffixFields) ∧
    records (handleFields fatalLogger 1 oddArgs suffixFields).events = [] ∧
    records (handleFields prodLogger 101 oddArgs suffixFields).events = [] := by
  refine ⟨⟨⟨by decide, "a", rfl⟩, ?_, by decide⟩, by decide, by decide, by decide, by decide⟩
  intro hw
  have := hw.1
  simp [oddArgs] at this

/-! ## The verbosity gate and the info capabilities: claims -/

/-- The records of `Infow` on a capability: the diagnostic of `handleFields`,
if any, and the entry of the capability itself. -/
theorem Infow_records (c : infoLogger) (seen seenDiag : Nat) (msg : String)
    (kvs : List Value) :
    ∀ e, e ∈ records (c.Infow seen seenDiag msg kvs).events →
      e ∈ records (handleFields c.log seenDiag kvs []).events ∨
        ∃ fs, (handleFields c.log seenDiag kvs []).result = Result.returned fs ∧
          e = ⟨c.level, c.log.name, Text.lit msg, c.log.fields ++ fs⟩ := by
  intro e he
  unfold infoLogger.Infow zap.Logger.Check at he
  rcases check_cases c.log seen c.level (Text.lit msg) with ⟨hn, -⟩ | hc
  · rw [hn] at he
    simp [Outcome.pure, records] at he
  · rw [hc] at he
    unfold Outcome.bind at he
    cases hr : (handleFields c.log seenDiag kvs []).result with
    | returned fs =>
      simp only [hr, records_append, Write_events, List.mem_append] at he
      rcases he with he | he
      · exact Or.inl he
      · right
        refine ⟨fs, rfl, ?_⟩
        cases hw : (c.log.core.Enabled c.level && c.log.core.sampled c.level seen) with
        | false => simp [hw, records] at he
        | true =>
          simp only [hw, if_true, records, List.mem_singleton] at he
          exact he
    | panicked =>
      simp only [hr] at he
      exact Or.inl he
    | exited =>
      simp only [hr] at he
      exact Or.inl he

/-- C5: for every logger `l` and verbosity `n`, with `lvl` the level computed
for `n`: `l.V(n).Enabled()` is what the core of `l` says about `lvl`.  When the
core disables `lvl`, `V` returns the shared `disabledInfoLogger`, whose `Info`,
`Infof` and `Infow` do nothing for any arguments.  When it enables `lvl`, `V`
returns a capability on the backend of `l` at level `lvl`.  The record of
`Info`, `Infof` and `Infow` on it is written when the sampler lets the entry
pass, at level `lvl`, under the name and with the context fields of that
backend; `Info` and `Infof` write no other record, and `Infow` only the
diagnostic of `handleFields` besides. -/
theorem V_gate (l : zapLogger) (n : Int) :
    (l.V n).Enabled = l.zapLogger.Core.Enabled (int8 (int64 (-1 * n))) ∧
    (l.zapLogger.Core.Enabled (int8 (int64 (-1 * n))) = false →
      l.V n = disabledInfoLogger ∧
      ∀ (seen seenDiag : Nat) (msg : String) (fields : List Field) (args : List Value),
        (l.V n).Info seen msg fields = ⟨[], Result.returned ()⟩ ∧
        (l.V n).Infof seen msg args = ⟨[], Result.returned ()⟩ ∧
        (l.V n).Infow seen seenDiag msg args = ⟨[], Result.returned ()⟩) ∧
    (l.zapLogger.Core.Enabled (int8 (int64 (-1 * n))) = true →
      l.V n = InfoLogger.info ⟨int8 (int64 (-1 * n)), l.zapLogger⟩ ∧
      ∀ (seen seenDiag : Nat) (msg : String) (fields : List Field) (args : List Value),
        records ((l.V n).Info seen msg fields).events =
          (if l.zapLogger.core.sampled (int8 (int64 (-1 * n))) seen then
            [⟨int8 (int64 (-1 * n)), l.zapLogger.name, Text.lit msg,
              l.zapLogger.fields ++ fields⟩]
          else []) ∧
        records ((l.V n).Infof seen msg args).events =
          (if l.zapLogger.core.sampled (int8 (int64 (-1 * n))) seen then
            [⟨int8 (int64 (-1 * n)), l.zapLogger.name, Text.sprintf msg args,
              l.zapLogger.fields ++ []⟩]
          else []) ∧
        (∀ fs, (handleFields l.zapLogger seenDiag args []).result = Result.returned fs →
          l.zapLogger.core.sampled (int8 (int64 (-1 * n))) seen = true →
          records ((l.V n).Infow seen seenDiag msg args).events =
            records (handleFields l.zapLogger seenDiag args []).events ++
              [⟨int8 (int64 (-1 * n)), l.zapLogger.name, Text.lit msg,
                l.zapLogger.fields ++ fs⟩]) ∧
        (l.zapLogger.core.sampled (int8 (int64 (-1 * n))) seen = false →
          int8 (int64 (-1 * n)) < zapcore.DPanicLevel →
          (l.V n).Infow seen seenDiag msg args = ⟨[], Result.returned ()⟩) ∧
        (∀ e, e ∈ records ((l.V n).Infow seen seenDiag msg args).events →
          e ∈ records (handleFields l.zapLogger seenDiag args []).events ∨
            ∃ fs, (handleFields l.zapLogger seenDiag args []).result = Result.returned fs ∧
              e = ⟨int8 (int64 (-1 * n)), l.zapLogger.name, Text.lit msg,
                l.zapLogger.fields ++ fs⟩)) := by
  simp only [zapLogger.V, zap.Logger.Core]
  generalize int8 (int64 (-1 * n)) = lvl
  by_cases hen : l.zapLogger.core.Enabled lvl = true
  swap
  · have hen2 : l.zapLogger.core.Enabled lvl = false := by simpa using hen
    simp [hen2, disabledInfoLogger, InfoLogger.Enabled, InfoLogger.Info, InfoLogger.Infof,
      InfoLogger.Infow, Outcome.pure]
  · simp only [hen, if_true, InfoLogger.Enabled, infoLogger.Enabled, Bool.true_eq_false,
      false_implies, true_implies, true_and]
    intro seen seenDiag msg fields args
    refine ⟨?_, ?_, ?_, ?_, ?_⟩
    · simp only [InfoLogger.Info, infoLogger.Info, zap.Logger.Check]
      rcases check_cases l.zapLogger seen lvl (Text.lit msg) with ⟨hn, hf⟩ | hc
      · rw [hn]
        simp only [hen, Bool.true_and] at hf
        simp [hf, Outcome.pure, records]
      · rw [hc]
        simp only [Write_events, hen, Bool.true_and]
        cases l.zapLogger.core.sampled lvl seen <;> simp [records]
    · simp only [InfoLogger.Infof, infoLogger.Infof, fmt.Sprintf, Outcome.bind,
        zap.Logger.Check]
      rcases check_cases l.zapLogger seen lvl (Text.sprintf msg args) with ⟨hn, hf⟩ | hc
      · rw [hn]
        simp only [hen, Bool.true_and] at hf
        simp [hf, Outcome.pure, records]
      · rw [hc]
        simp only [Write_events, hen, Bool.true_and]
        cases l.zapLogger.core.sampled lvl seen <;> simp [records]
    · intro fs hfs hs
      obtain ⟨sh, hc⟩ := check_accepted l.zapLogger seen lvl (Text.lit msg) hen hs
      simp only [InfoLogger.Infow, infoLogger.Infow, zap.Logger.Check, hc, Outcome.bind, hfs]
      rw [Write_events, records_append]
      simp [records]
    · intro hs hl
      simp only [InfoLogger.Infow, infoLogger.Infow, zap.Logger.Check,
        check_dropped l.zapLogger seen lvl (Text.lit msg) hl hs]
      rfl
    · exact Infow_records ⟨lvl, l.zapLogger⟩ seen seenDiag msg args

/-- C6, the code at the failing input: on the default logger (minimum level
`InfoLevel`) the level computed for verbosity `256` is `0`, because the
conversion to the 8-bit level keeps the low eight bits of `-256`.  So `V(256)`
is a live capability at `InfoLevel`, while `V(1)` is the disabled no-op,
although `1 <= 256`. -/
theorem V_wraps_at_256 :
    (1 : Int) ≤ 256 ∧
    int8 (int64 (-1 * 256)) = zapcore.InfoLevel ∧
    (stdLogger.V 256).Enabled = true ∧
    stdLogger.V 256 = InfoLogger.info ⟨zapcore.InfoLevel, prodLogger⟩ ∧
    (stdLogger.V 1).Enabled = false ∧
    stdLogger.V 1 = disabledInfoLogger := by
  decide

/-- C7, the code at the failing input: the capability `V(0)` of the default
logger, and the 101st entry of one level and message within a second, which the
sampler of the backend drops, so that `Check` declines.  `Infof` writes
nothing, yet `fmt.Sprintf` has been evaluated on the format string and the
arguments: the message is an argument of `Check` and is formatted before the
gate is consulted.  `Info` and `Infow` on the same capability do nothing at
all, even on a malformed key-value list. -/
theorem Infof_formats_before_gate :
    stdLogger.V 0 = InfoLogger.info ⟨zapcore.InfoLevel, prodLogger⟩ ∧
    prodLogger.Check 101 zapcore.InfoLevel (Text.sprintf "%d" [Value.int 1]) = none ∧
    (stdLogger.V 0).Infof 101 "%d" [Value.int 1] =
      ⟨[Event.format "%d" [Value.int 1]], Result.returned ()⟩ ∧
    formats ((stdLogger.V 0).Infof 101 "%d" [Value.int 1]).events = [("%d", [Value.int 1])] ∧
    records ((stdLogger.V 0).Infof 101 "%d" [Value.int 1]).events = [] ∧
    (stdLogger.V 0).Info 101 "msg" suffixFields = ⟨[], Result.returned ()⟩ ∧
    (stdLogger.V 0).Infow 101 1 "msg" oddArgs = ⟨[], Result.returned ()⟩ := by
  decide

/-! ## Derivation: claims -/

/-- C8: derivation never changes the receiver.  For a logger `l` on the heap:
after `c1 := l.WithValues(kvs...)`, `c2 := l.WithName(s)` and `c3 := l.L(ctx)`
in sequence the struct at `l` is what it was, and each call alone leaves every
allocated struct in place.  When `handleFields` returns `fs`, `c1` is a new
struct whose backend is that of `l` with `fs` added to the bound fields (and
when it does not return, the heap is untouched); `c2` is a new struct whose
backend is that of `l` with the name extended by segment `s`; `c3` is a new
struct under the name of `l`, its bound fields extending those of `l`. -/
theorem derivation_keeps_receiver (K1 K2 : String) (h : Heap) (l : Ptr) (o : zapLogger)
    (hl : h.get? l = some o) (seen : Nat) (kvs : List Value) (s : String) (ctx : Context) :
    (zapLogger.L K1 K2
        (zapLogger.WithName (zapLogger.WithValues h l seen kvs).1 l s).1 l ctx).1.get? l = some o ∧
    (∀ p q, h.get? p = some q →
      (zapLogger.WithValues h l seen kvs).1.get? p = some q ∧
      (zapLogger.WithName h l s).1.get? p = some q ∧
      (zapLogger.L K1 K2 h l ctx).1.get? p = some q) ∧
    (∀ fs, (handleFields o.zapLogger seen kvs []).result = Result.returned fs →
      ∃ c1 o1, (zapLogger.WithValues h l seen kvs).2.result = Result.returned c1 ∧ c1 ≠ l ∧
        (zapLogger.WithValues h l seen kvs).1.get? c1 = some o1 ∧
        o1.zapLogger = { o.zapLogger with fields := o.zapLogger.fields ++ fs }) ∧
    ((∀ fs, (handleFields o.zapLogger seen kvs []).result ≠ Result.returned fs) →
      (zapLogger.WithValues h l seen kvs).1 = h) ∧
    (∃ c2 o2, (zapLogger.WithName h l s).2.result = Result.returned c2 ∧ c2 ≠ l ∧
      (zapLogger.WithName h l s).1.get? c2 = some o2 ∧
      o2.zapLogger = { o.zapLogger with name :=
        if s = "" then o.zapLogger.name
        else if o.zapLogger.name = "" then s
        else o.zapLogger.name ++ "." ++ s }) ∧
    (∃ c3 o3, (zapLogger.L K1 K2 h l ctx).2.result = Result.returned c3 ∧ c3 ≠ l ∧
      (zapLogger.L K1 K2 h l ctx).1.get? c3 = some o3 ∧
      o3.zapLogger.name = o.zapLogger.name ∧
      o.zapLogger.fields <+: o3.zapLogger.fields) := by
  refine ⟨?_, ?_, ?_, ?_, ?_, ?_⟩
  · exact L_frame K1 K2 _ l ctx l o
      (WithName_frame _ l s l o (WithValues_frame h l seen kvs l o hl))
  · intro p q hp
    exact ⟨WithValues_frame h l seen kvs p q hp, WithName_frame h l s p q hp,
      L_frame K1 K2 h l ctx p q hp⟩
  · intro fs hfs
    rw [WithValues_eq h l o hl seen kvs]
    simp only [hfs]
    exact ⟨_, _, rfl, Heap.alloc_ne h _ l o hl, Heap.get?_alloc_new h _, With_fields _ _⟩
  · intro hno
    rw [WithValues_eq h l o hl seen kvs]
    cases hr : (handleFields o.zapLogger seen kvs []).result with
    | returned fs => exact absurd hr (hno fs)
    | panicked => rfl
    | exited => rfl
  · unfold zapLogger.WithName NewLogger
    rw [hl]
    refine ⟨_, _, rfl, Heap.alloc_ne h _ l o hl, Heap.get?_alloc_new h _, ?_⟩
    unfold zap.Logger.Named
    by_cases hs : s = ""
    · simp [hs]
    · by_cases hn : o.zapLogger.name = ""
      · simp [hs, hn]
      · simp [hs, hn]
  · rw [L_eq K1 K2 h l o hl ctx]
    refine ⟨_, _, rfl, Heap.alloc_ne h o l o hl,
      Heap.get?_set_eq _ _ o _ (Heap.get?_alloc_new h o), ?_, ?_⟩
    · simp [With_fields]
    · simp [With_fields]

/-- C8, witness: `WithValues("job", 7)`, `WithName("worker")` and `L` on the
default logger at address `0`. -/
theorem derivation_keeps_receiver_witness :
    stdHeap.get? 0 = some stdLogger ∧
    (zapLogger.L "requestID" "username"
        (zapLogger.WithName (zapLogger.WithValues stdHeap 0 1 jobArgs).1 0 "worker").1 0
          emptyContext).1.get? 0 = some stdLogger :=
  ⟨by decide,
    (derivation_keeps_receiver "requestID" "username" stdHeap 0 stdLogger (by decide) 1
      jobArgs "worker" emptyContext).1⟩

/-- The scenario `child := base.WithName("worker").WithValues("job", 7)` on the
default logger: the child has the name `worker` and the bound field `job=7`,
the base has neither. -/
theorem derivation_scenario :
    (zapLogger.WithValues (zapLogger.WithName stdHeap 0 "worker").1 1 1 jobArgs) =
      (⟨[stdLogger,
          ⟨{ prodLogger with name := "worker" },
            ⟨zapcore.InfoLevel, { prodLogger with name := "worker" }⟩⟩,
          ⟨{ prodLogger with name := "worker", fields := [zap.Any "job" (Value.int 7)] },
            ⟨zapcore.InfoLevel,
              { prodLogger with name := "worker",
                                fields := [zap.Any "job" (Value.int 7)] }⟩⟩]⟩,
        ⟨[], Result.returned 2⟩) ∧
    (zapLogger.WithName stdHeap 0 "worker").2 = ⟨[], Result.returned 1⟩ ∧
    stdLogger.zapLogger.name = "" ∧ stdLogger.zapLogger.fields = [] := by
  decide

/-- C9: for every logger `l` on the heap and every context, `l.L(ctx)` returns
normally, without any event, a logger whose embedded capability is that of
`l` and whose backend is the backend of `l` with exactly two string fields
added at the end, in this order: `KeyRequestID` and `KeyUsername`.  Each holds
the string that the context stores under the key, and the empty string when
the context stores no string there (nothing, or a value of another type). -/
theorem L_adds_context_fields (K1 K2 : String) (h : Heap) (l : Ptr) (o : zapLogger)
    (hl : h.get? l = some o) (ctx : Context) :
    ∃ lg o2 requestID username,
      (zapLogger.L K1 K2 h l ctx).2 = ⟨[], Result.returned lg⟩ ∧
      (zapLogger.L K1 K2 h l ctx).1.get? lg = some o2 ∧
      o2.infoLogger = o.infoLogger ∧
      o2.zapLogger = { o.zapLogger with fields :=
        o.zapLogger.fields ++ [zap.Str K1 requestID, zap.Str K2 username] } ∧
      (∀ v, ctx.Value (Value.str K1) = Value.str v → requestID = v) ∧
      ((∀ v, ctx.Value (Value.str K1) ≠ Value.str v) → requestID = "") ∧
      (∀ v, ctx.Value (Value.str K2) = Value.str v → username = v) ∧
      ((∀ v, ctx.Value (Value.str K2) ≠ Value.str v) → username = "") := by
  have key : ∀ x : Value,
      (∀ v, x = Value.str v → (x.asString).getD "" = v) ∧
      ((∀ v, x ≠ Value.str v) → (x.asString).getD "" = "") := by
    intro x
    cases x <;> simp [Value.asString]
  rw [L_eq K1 K2 h l o hl ctx]
  refine ⟨(h.alloc o).2, _, ((ctx.Value (Value.str K1)).asString).getD "",
    ((ctx.Value (Value.str K2)).asString).getD "", rfl,
    Heap.get?_set_eq _ _ o _ (Heap.get?_alloc_new h o), rfl, ?_,
    (key _).1, (key _).2, (key _).1, (key _).2⟩
  simp only [With_fields]

/-- C9, witness: a context with a request id and a user name that is not a string. -/
theorem L_adds_context_fields_witness :
    stdHeap.get? 0 = some stdLogger ∧
    ∃ lg o2 requestID username,
      (zapLogger.L "requestID" "username" stdHeap 0 requestContext).2 =
        ⟨[], Result.returned lg⟩ ∧
      (zapLogger.L "requestID" "username" stdHeap 0 requestContext).1.get? lg = some o2 ∧
      o2.infoLogger = stdLogger.infoLogger ∧
      o2.zapLogger = { stdLogger.zapLogger with fields :=
        stdLogger.zapLogger.fields ++
          [zap.Str "requestID" requestID, zap.Str "username" username] } ∧
      (∀ v, requestContext.Value (Value.str "requestID") = Value.str v → requestID = v) ∧
      ((∀ v, requestContext.Value (Value.str "requestID") ≠ Value.str v) → requestID = "") ∧
      (∀ v, requestContext.Value (Value.str "username") = Value.str v → username = v) ∧
      ((∀ v, requestContext.Value (Value.str "username") ≠ Value.str v) → username = "") :=
  ⟨by decide,
    L_adds_context_fields "requestID" "username" stdHeap 0 stdLogger (by decide)
      requestContext⟩

/-- The function `L` at a concrete context: the request id is taken over, the
user name, stored as a number, becomes the empty string. -/
theorem L_example :
    (zapLogger.L "requestID" "username" stdHeap 0 requestContext) =
      (⟨[stdLogger,
          ⟨{ prodLogger with fields :=
              [zap.Str "requestID" "r-1", zap.Str "username" ""] },
            ⟨zapcore.InfoLevel, prodLogger⟩⟩]⟩,
        ⟨[], Result.returned 1⟩) := by
  decide

/-! ## Construction: claims -/

/-- What `New` does on given options: it panics exactly when `Build` fails, and
otherwise allocates the logger on the built backend. -/
theorem New_eq (env : Env) (h : Heap) (opts : Options) :
    New env h (some opts) =
      match (zap.Config.Build env
          { Level := (zapcore.UnmarshalText env opts.Level).getD zapcore.InfoLevel,
            Development := opts.Development,
            DisableCaller := opts.DisableCaller,
            DisableStacktrace := opts.DisableStacktrace,
            Sampling := some (100, 100),
            Encoding := opts.Format,
            colorLevel := decide (opts.Format = consoleFormat) && opts.EnableColor,
            OutputPaths := opts.OutputPaths,
            ErrorOutputPaths := opts.ErrorOutputPaths } zapcore.PanicLevel 1) with
      | none => (h, ⟨[], Result.panicked⟩)
      | some l =>
        ((h.alloc ⟨l.Named opts.Name, ⟨zapcore.InfoLevel, l⟩⟩).1,
          ⟨[], Result.returned (h.alloc ⟨l.Named opts.Name, ⟨zapcore.InfoLevel, l⟩⟩).2⟩) := by
  unfold New
  cases hu : zapcore.UnmarshalText env opts.Level <;>
    simp only [hu, Option.getD_none, Option.getD_some]

theorem Named_core (log : zap.Logger) (s : String) : (log.Named s).core = log.core := by
  unfold zap.Logger.Named
  split
  · rfl
  · split <;> rfl

theorem Build_level (env : Env) (cfg : zap.Config) (stack : zapcore.Level) (skip : Nat)
    (l : zap.Logger) (hb : cfg.Build env stack skip = some l) : l.core.level = cfg.Level := by
  unfold zap.Config.Build at hb
  split at hb
  · simp at hb
  · split at hb
    · simp at hb
    · split at hb
      · simp at hb
      · simp only [Option.some.injEq] at hb
        subst hb
        rfl

/-- Whether `Build` fails does not depend on the level of the configuration. -/
theorem Build_isSome_level (env : Env) (cfg : zap.Config) (lvl : zapcore.Level)
    (stack : zapcore.Level) (skip : Nat) :
    (zap.Config.Build env { cfg with Level := lvl } stack skip).isSome =
      (cfg.Build env stack skip).isSome := by
  unfold zap.Config.Build
  simp only
  split
  · rfl
  · split
    · rfl
    · split <;> rfl

/-- C10: for options accepted by `New`, the minimum severity of the logger it
builds (of the backend and of the backend under the embedded capability) is
`InfoLevel` when the level text is not a recognised severity name, and the
level that the text names when it is; the seven names are recognised in lower
and upper case.  Whether `New` panics does not depend on the level text: an
unrecognised text never makes it fail. -/
theorem New_level (env : Env) (h h1 : Heap) (opts : Options) (evs : List Event) (p : Ptr)
    (z : zapLogger) (hnew : New env h (some opts) = (h1, ⟨evs, Result.returned p⟩))
    (hz : h1.get? p = some z) :
    (zapcore.UnmarshalText env opts.Level = none →
      z.zapLogger.core.level = zapcore.InfoLevel ∧
      z.infoLogger.log.core.level = zapcore.InfoLevel) ∧
    (∀ lvl, zapcore.UnmarshalText env opts.Level = some lvl →
      z.zapLogger.core.level = lvl ∧ z.infoLogger.log.core.level = lvl) ∧
    (∀ text : String,
      (New env h (some { opts with Level := text })).2.result = Result.panicked ↔
        (New env h (some opts)).2.result = Result.panicked) ∧
    (zapcore.UnmarshalText env "debug" = some zapcore.DebugLevel ∧
      zapcore.UnmarshalText env "info" = some zapcore.InfoLevel ∧
      zapcore.UnmarshalText env "warn" = some zapcore.WarnLevel ∧
      zapcore.UnmarshalText env "error" = some zapcore.ErrorLevel ∧
      zapcore.UnmarshalText env "dpanic" = some zapcore.DPanicLevel ∧
      zapcore.UnmarshalText env "panic" = some zapcore.PanicLevel ∧
      zapcore.UnmarshalText env "fatal" = some zapcore.FatalLevel ∧
      zapcore.UnmarshalText env "DEBUG" = some zapcore.DebugLevel ∧
      zapcore.UnmarshalText env "INFO" = some zapcore.InfoLevel ∧
      zapcore.UnmarshalText env "WARN" = some zapcore.WarnLevel ∧
      zapcore.UnmarshalText env "ERROR" = some zapcore.ErrorLevel ∧
      zapcore.UnmarshalText env "DPANIC" = some zapcore.DPanicLevel ∧
      zapcore.UnmarshalText env "PANIC" = some zapcore.PanicLevel ∧
      zapcore.UnmarshalText env "FATAL" = some zapcore.FatalLevel) := by
  have hlevel : z.zapLogger.core.level =
        (zapcore.UnmarshalText env opts.Level).getD zapcore.InfoLevel ∧
      z.infoLogger.log.core.level =
        (zapcore.UnmarshalText env opts.Level).getD zapcore.InfoLevel := by
    rw [New_eq] at hnew
    split at hnew
    · simp at hnew
    · rename_i l hb
      simp only [Prod.mk.injEq, Outcome.mk.injEq, Result.returned.injEq] at hnew
      obtain ⟨hh, -, hp⟩ := hnew
      subst hh hp
      rw [Heap.get?_alloc_new] at hz
      simp only [Option.some.injEq] at hz
      subst hz
      have := Build_level env _ _ _ l hb
      simp only at this
      exact ⟨by rw [Named_core]; exact this, this⟩
  refine ⟨?_, ?_, ?_, ?_⟩
  · intro hnone
    rw [hnone] at hlevel
    exact hlevel
  · intro lvl hsome
    rw [hsome] at hlevel
    exact hlevel
  · intro text
    rw [New_eq, New_eq]
    have hb := Build_isSome_level env
      { Level := (zapcore.UnmarshalText env opts.Level).getD zapcore.InfoLevel,
        Development := opts.Development,
        DisableCaller := opts.DisableCaller,
        DisableStacktrace := opts.DisableStacktrace,
        Sampling := some (100, 100),
        Encoding := opts.Format,
        colorLevel := decide (opts.Format = consoleFormat) && opts.EnableColor,
        OutputPaths := opts.OutputPaths,
        ErrorOutputPaths := opts.ErrorOutputPaths }
      ((zapcore.UnmarshalText env text).getD zapcore.InfoLevel) zapcore.PanicLevel 1
    simp only at hb ⊢
    revert hb
    cases zap.Config.Build env _ zapcore.PanicLevel 1 <;>
      cases zap.Config.Build env _ zapcore.PanicLevel 1 <;> simp
  · refine ⟨?_, ?_, ?_, ?_, ?_, ?_, ?_, ?_, ?_, ?_, ?_, ?_, ?_, ?_⟩ <;>
      simp [zapcore.UnmarshalText, zapcore.unmarshalText]

/-- C10, witness: the level text `verbose` is not a severity name; `New`
builds the same logger as from the default options, at `InfoLevel`. -/
theorem New_level_witness :
    New okEnv ⟨[]⟩ (some verboseOptions) = (⟨[stdLogger]⟩, ⟨[], Result.returned 0⟩) ∧
    zapcore.UnmarshalText okEnv verboseOptions.Level = none ∧
    stdLogger.zapLogger.core.level = zapcore.InfoLevel ∧
    stdLogger.infoLogger.log.core.level = zapcore.InfoLevel :=
  ⟨by decide, by decide,
    (New_level okEnv ⟨[]⟩ ⟨[stdLogger]⟩ verboseOptions [] 0 stdLogger (by decide)
      (by decide)).1 (by decide)⟩

/-! ## The process-wide default: lemmas -/

/-- The function `New` either leaves the heap as it is (and panics) or
allocates one struct and returns its address. -/
theorem New_cases (env : Env) (h : Heap) (opts : Option Options) :
    New env h opts = (h, ⟨[], Result.panicked⟩) ∨
      ∃ z, New env h opts = ((h.alloc z).1, ⟨[], Result.returned (h.alloc z).2⟩) := by
  unfold New
  simp only
  split
  · exact Or.inl rfl
  · exact Or.inr ⟨_, rfl⟩

/-- The function `New` leaves every allocated struct in place. -/
theorem New_frame (env : Env) (h : Heap) (opts : Option Options) (q : Nat) (x : zapLogger)
    (hq : h.get? q = some x) : (New env h opts).1.get? q = some x := by
  rcases New_cases env h opts with hn | ⟨z, hn⟩
  · rw [hn]
    exact hq
  · rw [hn]
    exact Heap.get?_alloc_old h z q x hq

/-- What `Init` does, in terms of `New`: the heap is the heap after `New`, and
the slot is assigned exactly when `New` returns. -/
theorem Init_eq (env : Env) (st : State) (opts : Option Options) :
    Init env st opts =
      match (New env st.heap opts).2.result with
      | Result.returned p =>
        (⟨(New env st.heap opts).1, p⟩, ⟨(New env st.heap opts).2.events, Result.returned ()⟩)
      | Result.panicked =>
        (⟨(New env st.heap opts).1, st.std⟩,
          ⟨(New env st.heap opts).2.events, Result.panicked⟩)
      | Result.exited =>
        (⟨(New env st.heap opts).1, st.std⟩,
          ⟨(New env st.heap opts).2.events, Result.exited⟩) := by
  unfold Init
  rcases hn : New env st.heap opts with ⟨h1, evs, r⟩
  cases r <;> rfl

/-- The function `Init` leaves every allocated struct in place, whatever its outcome. -/
theorem Init_frame (env : Env) (st : State) (opts : Option Options) (q : Nat) (x : zapLogger)
    (hq : st.heap.get? q = some x) : (Init env st opts).1.heap.get? q = some x := by
  have hf := New_frame env st.heap opts q x hq
  rw [Init_eq]
  cases (New env st.heap opts).2.result <;> exact hf

/-- The struct that `WithValues` returns is on the backend of the receiver,
with fields added. -/
theorem WithValues_child (h : Heap) (l : Nat) (o : zapLogger) (hl : h.get? l = some o)
    (seen : Nat) (kvs : List Value) (c : Nat) (x : zapLogger)
    (hr : (zapLogger.WithValues h l seen kvs).2.result = Result.returned c)
    (hx : (zapLogger.WithValues h l seen kvs).1.get? c = some x) :
    ∃ fs, x.zapLogger = { o.zapLogger with fields := o.zapLogger.fields ++ fs } := by
  rw [WithValues_eq h l o hl seen kvs] at hr hx
  cases hres : (handleFields o.zapLogger seen kvs []).result with
  | returned fs =>
    simp only [hres, Result.returned.injEq] at hr hx
    subst hr
    rw [Heap.get?_alloc_new] at hx
    simp only [Option.some.injEq] at hx
    subst hx
    exact ⟨fs, With_fields _ _⟩
  | panicked => simp [hres] at hr
  | exited => simp [hres] at hr

/-- The struct that `WithName` returns is on the backend of the receiver, renamed. -/
theorem WithName_child (h : Heap) (l : Nat) (o : zapLogger) (hl : h.get? l = some o)
    (s : String) (c : Nat) (x : zapLogger)
    (hr : (zapLogger.WithName h l s).2.result = Result.returned c)
    (hx : (zapLogger.WithName h l s).1.get? c = some x) :
    x.zapLogger = o.zapLogger.Named s := by
  unfold zapLogger.WithName NewLogger at hr hx
  rw [hl] at hr hx
  simp only [Result.returned.injEq] at hr hx
  subst hr
  rw [Heap.get?_alloc_new] at hx
  simp only [Option.some.injEq] at hx
  subst hx
  rfl

/-- The struct that `L` returns is on the backend of the receiver, with fields added. -/
theorem L_child (K1 K2 : String) (h : Heap) (l : Nat) (o : zapLogger) (hl : h.get? l = some o)
    (ctx : Context) (c : Nat) (x : zapLogger)
    (hr : (zapLogger.L K1 K2 h l ctx).2.result = Result.returned c)
    (hx : (zapLogger.L K1 K2 h l ctx).1.get? c = some x) :
    ∃ fs, x.zapLogger = { o.zapLogger with fields := o.zapLogger.fields ++ fs } := by
  rw [L_eq K1 K2 h l o hl ctx] at hr hx
  simp only [Result.returned.injEq] at hr hx
  subst hr
  rw [Heap.get?_set_eq _ _ o _ (Heap.get?_alloc_new h o)] at hx
  simp only [Option.some.injEq] at hx
  subst hx
  refine ⟨[zap.Str K1 (((ctx.Value (Value.str K1)).asString).getD ""),
    zap.Str K2 (((ctx.Value (Value.str K2)).asString).getD "")], ?_⟩
  simp only [With_fields]

theorem Named_development (log : zap.Logger) (s : String) :
    (log.Named s).development = log.development := by
  unfold zap.Logger.Named
  split
  · rfl
  · split <;> rfl

/-! ## The process-wide default: claims -/

/-- C11: on the state of the slot `std`.  Let the slot hold a default logger
`o`, and let `New(opts)` return (the logger `z` at the fresh address `p`).
Then `Init(opts)` returns and the slot holds `p`, the logger `New(opts)`; in
the state after `Init` every package-level function delegates to that logger:
`V`, `WithValues`, `WithName`, `L`, `Flush` and the severity functions are the
methods of the struct at `p`.  Every logger allocated before the call is left
unchanged, the previous default included.  In particular a logger derived
from the previous default by `WithValues`, `WithName` or `L` carries the core
(level, encoding, sinks) and the development flag of the previous default, and
after a following `Init` it is the same struct: a snapshot, not a live update. -/
theorem Init_swaps_slot (env : Env) (lib : zap.Library) (K1 K2 : String) (st : State)
    (o : zapLogger) (hstd : st.heap.get? st.std = some o) (opts : Option Options)
    (h1 : Heap) (evs : List Event) (p : Ptr)
    (hnew : New env st.heap opts = (h1, ⟨evs, Result.returned p⟩)) :
    ∃ z, Init env st opts = (⟨h1, p⟩, ⟨evs, Result.returned ()⟩) ∧
      h1.get? p = some z ∧ p ≠ st.std ∧
      (∀ n, V ⟨h1, p⟩ n = Outcome.pure (z.V n)) ∧
      (∀ seen kvs, WithValues ⟨h1, p⟩ seen kvs =
        (⟨(zapLogger.WithValues h1 p seen kvs).1, p⟩,
          (zapLogger.WithValues h1 p seen kvs).2)) ∧
      (∀ s, WithName ⟨h1, p⟩ s =
        (⟨(zapLogger.WithName h1 p s).1, p⟩, (zapLogger.WithName h1 p s).2)) ∧
      (∀ ctx, L K1 K2 ⟨h1, p⟩ ctx =
        (⟨(zapLogger.L K1 K2 h1 p ctx).1, p⟩, (zapLogger.L K1 K2 h1 p ctx).2)) ∧
      (Flush lib ⟨h1, p⟩ = zapLogger.Flush lib h1 p ∧
        Flush lib ⟨h1, p⟩ = lib.Sync z.zapLogger) ∧
      (∀ seen sev c, severity lib ⟨h1, p⟩ seen sev c = zapLogger.severity lib h1 p seen sev c ∧
        severity lib ⟨h1, p⟩ seen sev c = z.zapLogger.call lib seen sev c) ∧
      (∀ q x, st.heap.get? q = some x → h1.get? q = some x) ∧
      h1.get? st.std = some o ∧
      (∀ seen kvs c x, (WithValues st seen kvs).2.result = Result.returned c →
        (WithValues st seen kvs).1.heap.get? c = some x →
        x.zapLogger.core = o.zapLogger.core ∧
        x.zapLogger.development = o.zapLogger.development ∧
        (Init env (WithValues st seen kvs).1 opts).1.heap.get? c = some x) ∧
      (∀ s c x, (WithName st s).2.result = Result.returned c →
        (WithName st s).1.heap.get? c = some x →
        x.zapLogger.core = o.zapLogger.core ∧
        x.zapLogger.development = o.zapLogger.development ∧
        (Init env (WithName st s).1 opts).1.heap.get? c = some x) ∧
      (∀ ctx c x, (L K1 K2 st ctx).2.result = Result.returned c →
        (L K1 K2 st ctx).1.heap.get? c = some x →
        x.zapLogger.core = o.zapLogger.core ∧
        x.zapLogger.development = o.zapLogger.development ∧
        (Init env (L K1 K2 st ctx).1 opts).1.heap.get? c = some x) := by
  have hframe : ∀ q x, st.heap.get? q = some x → h1.get? q = some x := by
    intro q x hq
    have := New_frame env st.heap opts q x hq
    rw [hnew] at this
    exact this
  obtain ⟨z, hz, hp⟩ : ∃ z, h1.get? p = some z ∧ p ≠ st.std := by
    rcases New_cases env st.heap opts with hn | ⟨z, hn⟩
    · rw [hn] at hnew
      simp at hnew
    · rw [hn] at hnew
      simp only [Prod.mk.injEq, Outcome.mk.injEq, Result.returned.injEq] at hnew
      obtain ⟨hh, -, hpp⟩ := hnew
      subst hh hpp
      exact ⟨z, Heap.get?_alloc_new _ z, Heap.alloc_ne _ z _ o hstd⟩
  refine ⟨z, ?_, hz, hp, ?_, fun _ _ => rfl, fun _ => rfl, fun _ => rfl, ⟨rfl, ?_⟩, ?_, hframe,
    hframe _ _ hstd, ?_, ?_, ?_⟩
  · rw [Init_eq, hnew]
  · intro n
    unfold V
    simp only [hz]
  · unfold Flush zapLogger.Flush
    simp only [hz]
  · intro seen sev c
    unfold severity zapLogger.severity
    simp only [hz, and_self]
  · intro seen kvs c x hr hx
    obtain ⟨fs, hfs⟩ := WithValues_child st.heap st.std o hstd seen kvs c x hr hx
    exact ⟨by rw [hfs], by rw [hfs], Init_frame env _ opts c x hx⟩
  · intro s c x hr hx
    have hfs := WithName_child st.heap st.std o hstd s c x hr hx
    exact ⟨by rw [hfs, Named_core], by rw [hfs, Named_development],
      Init_frame env _ opts c x hx⟩
  · intro ctx c x hr hx
    obtain ⟨fs, hfs⟩ := L_child K1 K2 st.heap st.std o hstd ctx c x hr hx
    exact ⟨by rw [hfs], by rw [hfs], Init_frame env _ opts c x hx⟩

/-- C11, witness: the state after package initialization, reconfigured with
`debugOptions`; the new default is allocated at address `1`. -/
theorem Init_swaps_slot_witness :
    stdState.heap.get? stdState.std = some stdLogger ∧
    New okEnv stdState.heap (some debugOptions) =
      (⟨[stdLogger, debugStdLogger]⟩, ⟨[], Result.returned 1⟩) ∧
    ∃ z, Init okEnv stdState (some debugOptions) =
        (⟨⟨[stdLogger, debugStdLogger]⟩, 1⟩, ⟨[], Result.returned ()⟩) ∧
      (⟨[stdLogger, debugStdLogger]⟩ : Heap).get? 1 = some z ∧ 1 ≠ stdState.std :=
  ⟨by decide, by decide,
    match Init_swaps_slot okEnv quietLibrary "requestID" "username" stdState stdLogger
      (by decide) (some debugOptions) ⟨[stdLogger, debugStdLogger]⟩ [] 1 (by decide) with
    | ⟨z, hi, hz, hp, _⟩ => ⟨z, hi, hz, hp⟩⟩

/-- The state after package initialization is `stdState`; a child
`WithName("worker")` of the default is derived, then `Init(debugOptions)` runs.
The slot then holds the new logger (minimum level `debug`, JSON encoding), for
which the package-level `V(1)` is live; the child is the struct it was, on the
core of the previous default (minimum level `info`, console encoding), and its
`V(1)` is still the disabled no-op. -/
theorem Init_scenario :
    State.initial okEnv = (stdState, ⟨[], Result.returned ()⟩) ∧
    WithName stdState "worker" =
      (⟨⟨[stdLogger, workerLogger]⟩, 0⟩, ⟨[], Result.returned 1⟩) ∧
    Init okEnv ⟨⟨[stdLogger, workerLogger]⟩, 0⟩ (some debugOptions) =
      (⟨⟨[stdLogger, workerLogger, debugStdLogger]⟩, 2⟩, ⟨[], Result.returned ()⟩) ∧
    V ⟨⟨[stdLogger, workerLogger, debugStdLogger]⟩, 2⟩ 1 =
      Outcome.pure (InfoLogger.info ⟨zapcore.DebugLevel, debugStdLogger.zapLogger⟩) ∧
    (⟨[stdLogger, workerLogger, debugStdLogger]⟩ : Heap).get? 1 = some workerLogger ∧
    workerLogger.zapLogger.core = stdLogger.zapLogger.core ∧
    workerLogger.zapLogger.core ≠ debugStdLogger.zapLogger.core ∧
    workerLogger.V 1 = disabledInfoLogger := by
  decide

/-- When `New` panics, `Init` panics and the slot keeps the previous default. -/
theorem Init_panics_keeps_slot (env : Env) (st : State) (opts : Option Options)
    (hnew : (New env st.heap opts).2.result = Result.panicked) :
    (Init env st opts).1.std = st.std ∧ (Init env st opts).2.result = Result.panicked ∧
      (Init env st opts).1.heap = st.heap := by
  rcases New_cases env st.heap opts with hn | ⟨z, hn⟩
  · rw [Init_eq, hn]
    exact ⟨rfl, rfl, rfl⟩
  · rw [hn] at hnew
    simp at hnew

end Log
